import Mathlib

/-!
Verification development for the ES_MOO validation helpers (func.py).

Tables (pandas DataFrames) are modelled as lists of rows over exact
rationals; the columns used by the code are "ES_name", "Impact category",
"CF unit" and "value".  Python exceptions are modelled by an explicit
error type; a Python function falling off its end returns None, modelled
by a distinguished result.  pandas `Series.str.contains` defaults to
regular-expression matching, so the pattern "PDF.m2.yr" is matched with
each "." standing for an arbitrary character other than a newline; this
is modelled faithfully by dotSearch below.  IEEE special values have no
rational counterpart: a division whose divisor is zero (a Python
ZeroDivisionError in plain-float positions, an infinite/NaN result in
numpy positions) is uniformly modelled as the zeroDiv error outcome.
-/

/-- Row of an R matrix: the four columns the code reads. -/
structure Row where
  esName : String
  impactCategory : String
  cfUnit : String
  value : ℚ
deriving DecidableEq, Repr

/-- Matching of a regex pattern consisting only of literal characters and
the wildcard dot against an initial segment of the text, as Python re
interprets the patterns "PDF.m2.yr" and "DALY": a dot matches any
character except a newline. -/
def dotMatch : List Char → List Char → Bool
  | [], _ => true
  | _ :: _, [] => false
  | p :: ps, c :: cs => (if p = '.' then c != '\n' else p == c) && dotMatch ps cs

/-- Regex search: the pattern matches at some position of the text. -/
def dotSearch (p : List Char) : List Char → Bool
  | [] => dotMatch p []
  | c :: cs => dotMatch p (c :: cs) || dotSearch p cs

/-- Model of `Series.str.contains(pat)` with its default regex=True, for
the dot-and-literals patterns used by the code. -/
def containsRegex (s pat : String) : Bool :=
  dotSearch pat.toList s.toList

/-- Literal (substring) matching of a pattern against an initial segment
of the text. -/
def litMatch : List Char → List Char → Bool
  | [], _ => true
  | _ :: _, [] => false
  | p :: ps, c :: cs => p == c && litMatch ps cs

/-- Literal substring search. -/
def litSearch (p : List Char) : List Char → Bool
  | [] => litMatch p []
  | c :: cs => litMatch p (c :: cs) || litSearch p cs

/-- Plain-substring containment, the natural-language reading of
"contains"; used only to state spec-side properties. -/
def litContains (s pat : String) : Bool :=
  litSearch pat.toList s.toList

/-- Condition selecting endpoint rows in sep_midpoints_endpoints: the
"CF unit" cell matches "PDF.m2.yr" (regex) or contains "DALY". -/
def isEndpointRow (r : Row) : Bool :=
  containsRegex r.cfUnit "PDF.m2.yr" || containsRegex r.cfUnit "DALY"

/-- Model of sep_midpoints_endpoints (func.py lines 6-21): each returned
table is a copy of an input with the complementary rows dropped, so the
midpoint copies keep the rows failing isEndpointRow and the endpoint
copies keep the rows satisfying it.  Components in order:
R_constr_midpoint, R_use_midpoint, R_constr_endpoint, R_use_endpoint. -/
def sep_midpoints_endpoints (R_constr R_use : List Row) :
    List Row × List Row × List Row × List Row :=
  (R_constr.filter (fun r => !isEndpointRow r),
   R_use.filter (fun r => !isEndpointRow r),
   R_constr.filter (fun r => isEndpointRow r),
   R_use.filter (fun r => isEndpointRow r))

/-- Model of pandas `Series.unique`: the distinct values in order of
first occurrence. -/
def uniqueList (xs : List String) : List String :=
  xs.foldl (fun acc x => if x ∈ acc then acc else acc ++ [x]) []

/-- Model of impact_categories (func.py lines 23-36).  Components in
order: midpoint_categories, endpoint_categories_HH,
endpoint_categories_EQ.  The endpoint category lists use exact equality
of the "CF unit" cell with "PDF.m2.yr" resp. "DALY". -/
def impact_categories (R_constr R_use : List Row) :
    List String × List String × List String :=
  let s := sep_midpoints_endpoints R_constr R_use
  let R_use_mid := s.2.1
  let R_use_end := s.2.2.2
  (uniqueList (R_use_mid.map Row.impactCategory),
   uniqueList ((R_use_end.filter (fun r => r.cfUnit == "DALY")).map Row.impactCategory),
   uniqueList ((R_use_end.filter (fun r => r.cfUnit == "PDF.m2.yr")).map Row.impactCategory))

/-- Python exception kinds the modelled code can raise.  zeroDiv also
stands for the IEEE infinite/NaN outcomes of numpy divisions by zero,
which have no rational value. -/
inductive PyErr where
  | zeroDiv
  | typeErr
  | indexErr
  | nameErr
  | keyErr
deriving DecidableEq, Repr

/-- Outcome of a modelled Python call: an exception, the None return of a
function falling off its end, or a value. -/
inductive PyRes (α : Type) where
  | err (e : PyErr)
  | pynone
  | val (a : α)
deriving DecidableEq, Repr

/-- Return value of impact_computation.  The clean variants record the
numbers interpolated into the returned text; the decimal rendering of the
text itself is not modelled.  aop variants carry the ecosystem-quality
and human-health totals, in the order the code returns them. -/
inductive PyVal where
  | aopClean (eqTotal hhTotal : ℚ)
  | aopNum (eqTotal hhTotal : ℚ)
  | medClean (impact : String) (total : ℚ) (unit : String)
  | medNum (total : ℚ)
deriving DecidableEq, Repr

/-- Sum of the "value" column of a table, as `Series.sum` (0 on empty). -/
def sumValues (rs : List Row) : ℚ :=
  (rs.map Row.value).sum

/-- Element-wise comparison of the "Impact category" column against the
impact argument; comparison against Python None is False everywhere. -/
def matchesImpact (impact : Option String) (r : Row) : Bool :=
  match impact with
  | none => false
  | some s => r.impactCategory == s

/-- Rendering of the impact argument inside an f-string. -/
def pyStr (impact : Option String) : String :=
  match impact with
  | none => "None"
  | some s => s

/-- Sequencing of modelled Python steps: an exception or a None result
short-circuits. -/
def PyRes.bind {α β : Type} : PyRes α → (α → PyRes β) → PyRes β
  | .err e, _ => .err e
  | .pynone, _ => .pynone
  | .val a, f => f a

/-- Model of `.iloc[0]` on a table: the first row, IndexError on an empty
selection. -/
def iloc0 (rs : List Row) : PyRes Row :=
  match rs with
  | [] => .err .indexErr
  | r :: _ => .val r

/-- Model of `float(series)` on a value Series: defined only for a
one-element Series, TypeError otherwise. -/
def floatSeries (xs : List ℚ) : PyRes ℚ :=
  match xs with
  | [x] => .val x
  | _ => .err .typeErr

/-- Model of func.py lines 85-98, shared by the midpoint and endpoint
branches of impact_computation on the chosen pair of phase tables.
Line 85 takes `.iloc[0]` of the rows of df_constr in the impact category;
lines 88 and 91 apply `float(...)` to a filtered, scaled value Series
with no `.sum()`, which succeeds only when exactly one row matches the
technology and the impact category; line 91 divides the Series by
conversion_factor (zeroDiv outcome when it is zero); an unrecognized
format falls off the function end, returning None. -/
def medCompute (tech : String) (impact : Option String)
    (conversion_factor capacity_factor use_value : ℚ) (format : String)
    (df_constr df_use : List Row) : PyRes PyVal :=
  PyRes.bind (iloc0 (df_constr.filter (fun r => matchesImpact impact r))) fun firstRow =>
  PyRes.bind (floatSeries
      ((df_constr.filter (fun r => r.esName == tech && matchesImpact impact r)).map
        (fun r => r.value * capacity_factor))) fun constr =>
  if conversion_factor = 0 then .err .zeroDiv
  else
    PyRes.bind (floatSeries
        ((df_use.filter (fun r => r.esName == tech && matchesImpact impact r)).map
          (fun r => r.value / conversion_factor))) fun useQuot =>
    let use := useQuot * use_value
    if format = "clean" then
      .val (.medClean (pyStr impact) (use + constr) firstRow.cfUnit)
    else if format = "number" then .val (.medNum (use + constr))
    else .pynone

/-- Model of func.py lines 58-75, the aop block of impact_computation on
the endpoint phase tables.  The four phase quantities filter by
technology and by regex containment of the unit markers, sum the value
column, and scale: the use quantities by 1/conversion_factor (a Python
ZeroDivisionError when it is zero, line 60) and use_value, the
construction quantities by capacity_factor.  An unrecognized format falls
past line 75 to line 85, where df_constr was never assigned: NameError. -/
def aopCompute (tech : String)
    (conversion_factor capacity_factor use_value : ℚ) (format : String)
    (R_constr_end R_use_end : List Row) : PyRes PyVal :=
  if conversion_factor = 0 then .err .zeroDiv
  else
    let ecosystem_quality_use :=
      sumValues (R_use_end.filter
        (fun r => r.esName == tech && containsRegex r.cfUnit "PDF.m2.yr")) /
        conversion_factor * use_value
    let human_health_use :=
      sumValues (R_use_end.filter
        (fun r => r.esName == tech && containsRegex r.cfUnit "DALY")) /
        conversion_factor * use_value
    let ecosystem_quality_constr :=
      sumValues (R_constr_end.filter
        (fun r => r.esName == tech && containsRegex r.cfUnit "PDF.m2.yr")) *
        capacity_factor
    let human_health_constr :=
      sumValues (R_constr_end.filter
        (fun r => r.esName == tech && containsRegex r.cfUnit "DALY")) *
        capacity_factor
    if format = "clean" then
      .val (.aopClean (ecosystem_quality_constr + ecosystem_quality_use)
        (human_health_constr + human_health_use))
    else if format = "number" then
      .val (.aopNum (ecosystem_quality_constr + ecosystem_quality_use)
        (human_health_constr + human_health_use))
    else .err .nameErr

/-- Model of impact_computation (func.py lines 38-98): separate the phase
tables, then dispatch on the indicator into the aop block or into
medCompute on copies of the midpoint or endpoint tables; with an
unrecognized indicator, line 85 reads the never-assigned df_constr:
NameError. -/
def impact_computation (tech : String) (impact : Option String)
    (conversion_factor capacity_factor use_value : ℚ)
    (indicator format : String) (R_constr R_use : List Row) : PyRes PyVal :=
  let s := sep_midpoints_endpoints R_constr R_use
  if indicator = "aop" then
    aopCompute tech conversion_factor capacity_factor use_value format
      s.2.2.1 s.2.2.2
  else if indicator = "midpoint" then
    medCompute tech impact conversion_factor capacity_factor use_value format
      s.1 s.2.1
  else if indicator = "endpoint" then
    medCompute tech impact conversion_factor capacity_factor use_value format
      s.2.2.1 s.2.2.2
  else .err .nameErr

/-- Brightway reference tables have one row; a table is modelled as the
association of each column name with the value `.iloc[0]` reads there. -/
def dfLookup (df : List (String × ℚ)) (col : String) : Option ℚ :=
  (df.find? (fun p => p.1 == col)).map Prod.snd

/-- Column-name stem for ecosystem-quality endpoint reference values
(func.py line 119). -/
def method_endpoint_EQ : String := "IMPACT World+ Damage 2.0 | Ecosystem quality | "

/-- Column-name stem for human-health endpoint reference values
(func.py line 120). -/
def method_endpoint_HH : String := "IMPACT World+ Damage 2.0 | Human health | "

/-- Column-name stem for midpoint reference values (func.py line 121). -/
def method_midpoint : String := "IMPACT World+ Midpoint 2.0 | Midpoint | "

/-- Row of the table comparison builds before the delta column: the
transposed frame has the impact category or area of protection as index
label and the es_moo and brightway columns. -/
structure OutRow where
  label : String
  es_moo : ℚ
  brightway : ℚ
deriving DecidableEq, Repr

/-- Row of the final comparison table, after the delta column is added. -/
structure DeltaRow where
  label : String
  es_moo : ℚ
  brightway : ℚ
  delta : ℚ
deriving DecidableEq, Repr

/-- Model of `df[col].iloc[0]` on a one-row reference table: the value of
the column, KeyError on a missing column. -/
def getCol (df : List (String × ℚ)) (col : String) : PyRes ℚ :=
  match dfLookup df col with
  | none => .err .keyErr
  | some v => .val v

/-- Extraction of the float a midpoint or endpoint "number" computation
returned; any other shape of value is a TypeError.  Unreachable for the
calls the comparison loops make. -/
def asMedNum (v : PyVal) : PyRes ℚ :=
  match v with
  | .medNum x => .val x
  | _ => .err .typeErr

/-- Destructuring `EQ_ES_moo, HH_ES_moo = impact_computation(...)` of an
aop "number" result into the (EQ, HH) pair; any other shape of value is
a TypeError. -/
def asAopNum (v : PyVal) : PyRes (ℚ × ℚ)
  := match v with
  | .aopNum a b => .val (a, b)
  | _ => .err .typeErr

/-- Accumulation loops of func.py lines 131-135: add the reference value
of each method-stem-plus-category column to the accumulator; a missing
column is a KeyError. -/
def sumLookups (df : List (String × ℚ)) (method : String) :
    List String → ℚ → PyRes ℚ
  | [], acc => .val acc
  | c :: cs, acc =>
    PyRes.bind (getCol df (method ++ c)) fun v =>
    sumLookups df method cs (acc + v)

/-- Loop body of func.py lines 143-145 and 151-157: per impact category,
first append the reference value of the method-stem column, then append
the impact_computation number. -/
def compLoop (tech : String) (conversion_factor capacity_factor use_value : ℚ)
    (indicator : String) (dfbw : List (String × ℚ)) (method : String)
    (R_constr R_use : List Row) : List String → PyRes (List OutRow)
  | [] => .val []
  | c :: cs =>
    PyRes.bind (getCol dfbw (method ++ c)) fun bw =>
    PyRes.bind (PyRes.bind (impact_computation tech (some c) conversion_factor
      capacity_factor use_value indicator "number" R_constr R_use) asMedNum) fun x =>
    PyRes.bind (compLoop tech conversion_factor capacity_factor use_value indicator
      dfbw method R_constr R_use cs) fun rest =>
    .val (⟨c, x, bw⟩ :: rest)

/-- Model of comparison up to line 161: the transposed res frame of index
labels with their es_moo and brightway entries, before the delta column.
The aop branch (lines 126-139) accumulates the reference sums for EQ then
HH, runs impact_computation with indicator "aop" and format "number",
and lays the frame out with rows "Human health" then "Ecosystem quality";
the midpoint and endpoint branches (lines 141-159) loop over the category
lists of impact_categories, the endpoint branch doing the HH categories
then the EQ categories; with any other indicator the variable res was
never assigned and line 161 raises a NameError. -/
def comparisonCore (tech : String)
    (conversion_factor capacity_factor use_value : ℚ) (indicator : String)
    (df_bw_mid df_bw_end : List (String × ℚ))
    (R_constr R_use : List Row) : PyRes (List OutRow) :=
  let cats := impact_categories R_constr R_use
  let midpoint_categories := cats.1
  let endpoint_categories_HH := cats.2.1
  let endpoint_categories_EQ := cats.2.2
  if indicator = "aop" then
    PyRes.bind (sumLookups df_bw_end method_endpoint_EQ endpoint_categories_EQ 0)
      fun EQ_brightway =>
    PyRes.bind (sumLookups df_bw_end method_endpoint_HH endpoint_categories_HH 0)
      fun HH_brightway =>
    PyRes.bind (PyRes.bind (impact_computation tech none conversion_factor
      capacity_factor use_value "aop" "number" R_constr R_use) asAopNum) fun p =>
    .val [⟨"Human health", p.2, HH_brightway⟩,
          ⟨"Ecosystem quality", p.1, EQ_brightway⟩]
  else if indicator = "midpoint" then
    compLoop tech conversion_factor capacity_factor use_value "midpoint"
      df_bw_mid method_midpoint R_constr R_use midpoint_categories
  else if indicator = "endpoint" then
    PyRes.bind (compLoop tech conversion_factor capacity_factor use_value "endpoint"
      df_bw_end method_endpoint_HH R_constr R_use endpoint_categories_HH) fun hhRows =>
    PyRes.bind (compLoop tech conversion_factor capacity_factor use_value "endpoint"
      df_bw_end method_endpoint_EQ R_constr R_use endpoint_categories_EQ) fun eqRows =>
    .val (hhRows ++ eqRows)
  else .err .nameErr

/-- Model of func.py line 163: the delta column is the element-wise
relative difference (brightway - es_moo) / brightway.  A zero brightway
entry yields an IEEE infinity or NaN in numpy, neither of which is a
rational; that outcome is modelled as the zeroDiv error. -/
def addDelta : List OutRow → PyRes (List DeltaRow)
  | [] => .val []
  | r :: rs =>
    if r.brightway = 0 then .err .zeroDiv
    else
      PyRes.bind (addDelta rs) fun ds =>
      .val (⟨r.label, r.es_moo, r.brightway,
        (r.brightway - r.es_moo) / r.brightway⟩ :: ds)

/-- Model of comparison (func.py lines 100-165): the assembled frame of
comparisonCore with the delta column of addDelta appended. -/
def comparison (tech : String)
    (conversion_factor capacity_factor use_value : ℚ) (indicator : String)
    (df_bw_mid df_bw_end : List (String × ℚ))
    (R_constr R_use : List Row) : PyRes (List DeltaRow) :=
  PyRes.bind (comparisonCore tech conversion_factor capacity_factor use_value
    indicator df_bw_mid df_bw_end R_constr R_use) addDelta

/-- Formula of the claim for the midpoint/endpoint "number" computation:
the sum of ALL values of the phase subset's rows matching the technology
and the impact category, the use sum scaled by use_value over
conversion_factor and the construction sum by capacity_factor. -/
def impactNumberSpec (tech impact : String)
    (conversion_factor capacity_factor use_value : ℚ)
    (df_constr df_use : List Row) : ℚ :=
  sumValues (df_use.filter (fun r => r.esName == tech && r.impactCategory == impact)) /
      conversion_factor * use_value
    + sumValues (df_constr.filter
        (fun r => r.esName == tech && r.impactCategory == impact)) * capacity_factor

/-- Endpoint-row selection read literally from the words of the spec:
the "CF unit" cell contains "PDF.m2.yr" or "DALY" as a plain substring. -/
def isEndpointRowLit (r : Row) : Bool :=
  litContains r.cfUnit "PDF.m2.yr" || litContains r.cfUnit "DALY"

/-- Formula of the aop claim read literally, with "contains" as plain
substring containment over the input tables: the (EQ, HH) pair, each the
scaled use sum plus the scaled construction sum of the technology's rows
bearing the respective marker. -/
def aopNumberSpecLit (tech : String)
    (conversion_factor capacity_factor use_value : ℚ)
    (R_constr R_use : List Row) : ℚ × ℚ :=
  (sumValues (R_use.filter
      (fun r => r.esName == tech && litContains r.cfUnit "PDF.m2.yr")) /
      conversion_factor * use_value
    + sumValues (R_constr.filter
        (fun r => r.esName == tech && litContains r.cfUnit "PDF.m2.yr")) *
        capacity_factor,
   sumValues (R_use.filter
      (fun r => r.esName == tech && litContains r.cfUnit "DALY")) /
      conversion_factor * use_value
    + sumValues (R_constr.filter
        (fun r => r.esName == tech && litContains r.cfUnit "DALY")) *
        capacity_factor)

/-! A small heap of named DataFrames, to state that the pandas in-place
operations (`.copy(deep=True)` then `.drop(..., inplace=True)`) never
touch the caller's tables.  A reference is an index into the heap; copy
allocates a fresh cell at the end, and an in-place drop overwrites the
cell it is given. -/

/-- Store of allocated DataFrames; a reference is an index into dfs. -/
structure Heap where
  dfs : List (List Row)
deriving DecidableEq, Repr

/-- Table a reference designates ([] for a dangling reference). -/
def readH (h : Heap) (i : Nat) : List Row :=
  h.dfs.getD i []

/-- Fresh cell holding d, and its reference. -/
def allocH (h : Heap) (d : List Row) : Heap × Nat :=
  (⟨h.dfs ++ [d]⟩, h.dfs.length)

/-- Overwrite of the cell at i. -/
def writeH (h : Heap) (i : Nat) (d : List Row) : Heap :=
  ⟨h.dfs.set i d⟩

/-- Model of `df.copy(deep=True)`: a fresh cell with the same rows. -/
def copyH (h : Heap) (i : Nat) : Heap × Nat :=
  allocH h (readH h i)

/-- Model of `df.drop(df[p].index, inplace=True)`: the rows satisfying p
are removed from the cell at i, in place. -/
def dropRowsH (h : Heap) (i : Nat) (p : Row → Bool) : Heap :=
  writeH h i ((readH h i).filter (fun r => !(p r)))

/-- Heap-level sep_midpoints_endpoints: four deep copies of the two input
references, then the four in-place drops of func.py lines 17-20, applied
to the copies only. -/
def sepH (h : Heap) (rc ru : Nat) : Heap × (Nat × Nat × Nat × Nat) :=
  let a1 := copyH h rc
  let a2 := copyH a1.1 ru
  let a3 := copyH a2.1 rc
  let a4 := copyH a3.1 ru
  let h5 := dropRowsH a4.1 a1.2 (fun r => isEndpointRow r)
  let h6 := dropRowsH h5 a2.2 (fun r => isEndpointRow r)
  let h7 := dropRowsH h6 a3.2 (fun r => !isEndpointRow r)
  let h8 := dropRowsH h7 a4.2 (fun r => !isEndpointRow r)
  (h8, (a1.2, a2.2, a3.2, a4.2))

/-- Heap-level impact_categories: sep_midpoints_endpoints on the heap,
then the pure unique computations on the use-phase copies. -/
def impact_categoriesH (h : Heap) (rc ru : Nat) :
    Heap × (List String × List String × List String) :=
  let s := sepH h rc ru
  (s.1,
   (uniqueList ((readH s.1 s.2.2.1).map Row.impactCategory),
    uniqueList (((readH s.1 s.2.2.2.2).filter
      (fun r => r.cfUnit == "DALY")).map Row.impactCategory),
    uniqueList (((readH s.1 s.2.2.2.2).filter
      (fun r => r.cfUnit == "PDF.m2.yr")).map Row.impactCategory)))

/-- Heap-level impact_computation: sep_midpoints_endpoints on the heap;
the aop block reads the endpoint copies, the midpoint and endpoint
branches take the further `.copy()` of func.py lines 79-83 before
computing. -/
def impact_computationH (h : Heap) (tech : String) (impact : Option String)
    (conversion_factor capacity_factor use_value : ℚ)
    (indicator format : String) (rc ru : Nat) : Heap × PyRes PyVal :=
  let s := sepH h rc ru
  if indicator = "aop" then
    (s.1, aopCompute tech conversion_factor capacity_factor use_value format
      (readH s.1 s.2.2.2.1) (readH s.1 s.2.2.2.2))
  else if indicator = "midpoint" then
    let c1 := copyH s.1 s.2.1
    let c2 := copyH c1.1 s.2.2.1
    (c2.1, medCompute tech impact conversion_factor capacity_factor use_value
      format (readH c2.1 c1.2) (readH c2.1 c2.2))
  else if indicator = "endpoint" then
    let c1 := copyH s.1 s.2.2.2.1
    let c2 := copyH c1.1 s.2.2.2.2
    (c2.1, medCompute tech impact conversion_factor capacity_factor use_value
      format (readH c2.1 c1.2) (readH c2.1 c2.2))
  else (s.1, .err .nameErr)

/-- Heap-level comparison loop: the heap threads through the
impact_computation calls, and an exception stops the loop with the heap
as it stands. -/
def compLoopH (tech : String) (conversion_factor capacity_factor use_value : ℚ)
    (indicator : String) (dfbw : List (String × ℚ)) (method : String)
    (rc ru : Nat) : Heap → List String → Heap × PyRes (List OutRow)
  | h, [] => (h, .val [])
  | h, c :: cs =>
    match getCol dfbw (method ++ c) with
    | .err e => (h, .err e)
    | .pynone => (h, .pynone)
    | .val bw =>
      let q := impact_computationH h tech (some c) conversion_factor
        capacity_factor use_value indicator "number" rc ru
      match PyRes.bind q.2 asMedNum with
      | .err e => (q.1, .err e)
      | .pynone => (q.1, .pynone)
      | .val x =>
        let rest := compLoopH tech conversion_factor capacity_factor use_value
          indicator dfbw method rc ru q.1 cs
        (rest.1, PyRes.bind rest.2 fun restRows => .val (⟨c, x, bw⟩ :: restRows))

/-- Heap-level comparison: the sep call of line 115 (whose results the
function never uses), the impact_categories call of line 117, the
indicator branches threading the heap through impact_computation, and the
pure delta column. -/
def comparisonH (h : Heap) (tech : String)
    (conversion_factor capacity_factor use_value : ℚ) (indicator : String)
    (df_bw_mid df_bw_end : List (String × ℚ)) (rc ru : Nat) :
    Heap × PyRes (List DeltaRow) :=
  let s := sepH h rc ru
  let ic := impact_categoriesH s.1 rc ru
  let h2 := ic.1
  let core : Heap × PyRes (List OutRow) :=
    if indicator = "aop" then
      match sumLookups df_bw_end method_endpoint_EQ ic.2.2.2 0 with
      | .err e => (h2, .err e)
      | .pynone => (h2, .pynone)
      | .val EQ_brightway =>
        match sumLookups df_bw_end method_endpoint_HH ic.2.2.1 0 with
        | .err e => (h2, .err e)
        | .pynone => (h2, .pynone)
        | .val HH_brightway =>
          let q := impact_computationH h2 tech none conversion_factor
            capacity_factor use_value "aop" "number" rc ru
          (q.1, PyRes.bind (PyRes.bind q.2 asAopNum) fun p =>
            .val [⟨"Human health", p.2, HH_brightway⟩,
                  ⟨"Ecosystem quality", p.1, EQ_brightway⟩])
    else if indicator = "midpoint" then
      compLoopH tech conversion_factor capacity_factor use_value "midpoint"
        df_bw_mid method_midpoint rc ru h2 ic.2.1
    else if indicator = "endpoint" then
      let q1 := compLoopH tech conversion_factor capacity_factor use_value
        "endpoint" df_bw_end method_endpoint_HH rc ru h2 ic.2.2.1
      match q1.2 with
      | .err e => (q1.1, .err e)
      | .pynone => (q1.1, .pynone)
      | .val hhRows =>
        let q2 := compLoopH tech conversion_factor capacity_factor use_value
          "endpoint" df_bw_end method_endpoint_EQ rc ru q1.1 ic.2.2.2
        (q2.1, PyRes.bind q2.2 fun eqRows => .val (hhRows ++ eqRows))
    else (h2, .err .nameErr)
  (core.1, PyRes.bind core.2 addDelta)

section ReductionLemmas

/-! Step-by-step reduction lemmas for the pattern-matching definitions,
used to evaluate the model on concrete inputs. -/

variable {α β : Type}

theorem pyBind_err (e : PyErr) (f : α → PyRes β) :
    PyRes.bind (.err e) f = .err e := rfl

theorem pyBind_pynone (f : α → PyRes β) :
    PyRes.bind (.pynone : PyRes α) f = .pynone := rfl

theorem pyBind_val (a : α) (f : α → PyRes β) :
    PyRes.bind (.val a) f = f a := rfl

theorem iloc0_nil : iloc0 [] = .err .indexErr := rfl

theorem iloc0_cons (r : Row) (rs : List Row) : iloc0 (r :: rs) = .val r := rfl

theorem floatSeries_nil : floatSeries [] = .err .typeErr := rfl

theorem floatSeries_single (x : ℚ) : floatSeries [x] = .val x := rfl

theorem floatSeries_two (x y : ℚ) (l : List ℚ) :
    floatSeries (x :: y :: l) = .err .typeErr := rfl

theorem matchesImpact_some (s : String) (r : Row) :
    matchesImpact (some s) r = (r.impactCategory == s) := rfl

theorem matchesImpact_none (r : Row) : matchesImpact none r = false := rfl

theorem asMedNum_medNum (x : ℚ) : asMedNum (.medNum x) = .val x := rfl

theorem asAopNum_aopNum (a b : ℚ) : asAopNum (.aopNum a b) = .val (a, b) := rfl

theorem getCol_eq (df : List (String × ℚ)) (col : String) :
    getCol df col =
      match dfLookup df col with
      | none => .err .keyErr
      | some v => .val v := rfl

theorem getCol_of_lookup (df : List (String × ℚ)) (col : String) (v : ℚ)
    (h : dfLookup df col = some v) : getCol df col = .val v := by
  rw [getCol_eq, h]

theorem getCol_of_missing (df : List (String × ℚ)) (col : String)
    (h : dfLookup df col = none) : getCol df col = .err .keyErr := by
  rw [getCol_eq, h]

theorem sumLookups_nil (df : List (String × ℚ)) (method : String) (acc : ℚ) :
    sumLookups df method [] acc = .val acc := rfl

theorem sumLookups_cons (df : List (String × ℚ)) (method : String)
    (c : String) (cs : List String) (acc : ℚ) :
    sumLookups df method (c :: cs) acc =
      PyRes.bind (getCol df (method ++ c)) fun v =>
        sumLookups df method cs (acc + v) := rfl

theorem compLoop_nil (tech : String) (cf cp uv : ℚ) (ind : String)
    (dfbw : List (String × ℚ)) (method : String) (Rc Ru : List Row) :
    compLoop tech cf cp uv ind dfbw method Rc Ru [] = .val [] := rfl

theorem compLoop_cons (tech : String) (cf cp uv : ℚ) (ind : String)
    (dfbw : List (String × ℚ)) (method : String) (Rc Ru : List Row)
    (c : String) (cs : List String) :
    compLoop tech cf cp uv ind dfbw method Rc Ru (c :: cs) =
      (PyRes.bind (getCol dfbw (method ++ c)) fun bw =>
        PyRes.bind (PyRes.bind
          (impact_computation tech (some c) cf cp uv ind "number" Rc Ru)
          asMedNum) fun x =>
        PyRes.bind (compLoop tech cf cp uv ind dfbw method Rc Ru cs) fun rest =>
        .val (⟨c, x, bw⟩ :: rest)) := rfl

theorem addDelta_nil : addDelta [] = .val [] := rfl

theorem addDelta_cons (r : OutRow) (rs : List OutRow) :
    addDelta (r :: rs) =
      if r.brightway = 0 then .err .zeroDiv
      else
        PyRes.bind (addDelta rs) fun ds =>
        .val (⟨r.label, r.es_moo, r.brightway,
          (r.brightway - r.es_moo) / r.brightway⟩ :: ds) := rfl

end ReductionLemmas


section InversionLemmas

variable {α β : Type}

theorem pyBind_eq_val {m : PyRes α} {f : α → PyRes β} {b : β}
    (h : PyRes.bind m f = .val b) : ∃ a, m = .val a ∧ f a = .val b := by
  cases m with
  | err e => simp [PyRes.bind] at h
  | pynone => simp [PyRes.bind] at h
  | val a => exact ⟨a, rfl, h⟩

theorem pyBind_eq_err {m : PyRes α} {f : α → PyRes β} {e : PyErr}
    (h : PyRes.bind m f = .err e) :
    m = .err e ∨ ∃ a, m = .val a ∧ f a = .err e := by
  cases m with
  | err e2 =>
    rw [pyBind_err] at h
    injection h with h2
    exact Or.inl (by rw [h2])
  | pynone => simp [PyRes.bind] at h
  | val a => exact Or.inr ⟨a, rfl, h⟩

theorem iloc0_err {rs : List Row} {e : PyErr} (h : iloc0 rs = .err e) :
    e = .indexErr := by
  cases rs with
  | nil => rw [iloc0_nil] at h; injection h with h; exact h.symm
  | cons r t => rw [iloc0_cons] at h; cases h

theorem floatSeries_err {xs : List ℚ} {e : PyErr} (h : floatSeries xs = .err e) :
    e = .typeErr := by
  match xs with
  | [] => rw [floatSeries_nil] at h; injection h with h; exact h.symm
  | [x] => rw [floatSeries_single] at h; cases h
  | x :: y :: t => rw [floatSeries_two] at h; injection h with h; exact h.symm

theorem floatSeries_val {xs : List ℚ} {x : ℚ} (h : floatSeries xs = .val x) :
    xs = [x] := by
  match xs with
  | [] => rw [floatSeries_nil] at h; cases h
  | [y] => rw [floatSeries_single] at h; injection h with h; rw [h]
  | y :: z :: t => rw [floatSeries_two] at h; cases h

theorem getCol_val {df : List (String × ℚ)} {col : String} {v : ℚ}
    (h : getCol df col = .val v) : dfLookup df col = some v := by
  rw [getCol_eq] at h
  cases hl : dfLookup df col with
  | none => rw [hl] at h; cases h
  | some w => rw [hl] at h; injection h with h; rw [h]

theorem getCol_err {df : List (String × ℚ)} {col : String} {e : PyErr}
    (h : getCol df col = .err e) : e = .keyErr := by
  rw [getCol_eq] at h
  cases hl : dfLookup df col with
  | none => rw [hl] at h; injection h with h; exact h.symm
  | some w => rw [hl] at h; cases h

theorem asMedNum_val {v : PyVal} {x : ℚ} (h : asMedNum v = .val x) :
    v = .medNum x := by
  cases v with
  | medNum y =>
    simp only [asMedNum] at h
    injection h with h
    rw [h]
  | aopClean a b => simp [asMedNum] at h
  | aopNum a b => simp [asMedNum] at h
  | medClean i t u => simp [asMedNum] at h

theorem asMedNum_err {v : PyVal} {e : PyErr} (h : asMedNum v = .err e) :
    e = .typeErr := by
  cases v with
  | medNum x => simp only [asMedNum] at h; cases h
  | aopClean a b => simp only [asMedNum] at h; injection h with h; exact h.symm
  | aopNum a b => simp only [asMedNum] at h; injection h with h; exact h.symm
  | medClean i t u => simp only [asMedNum] at h; injection h with h; exact h.symm

theorem asAopNum_val {v : PyVal} {p : ℚ × ℚ} (h : asAopNum v = .val p) :
    v = .aopNum p.1 p.2 := by
  cases v with
  | aopNum a b =>
    simp only [asAopNum] at h
    injection h with h
    rw [← h]
  | aopClean a b => simp [asAopNum] at h
  | medNum x => simp [asAopNum] at h
  | medClean i t u => simp [asAopNum] at h

theorem asAopNum_err {v : PyVal} {e : PyErr} (h : asAopNum v = .err e) :
    e = .typeErr := by
  cases v with
  | aopNum a b => simp only [asAopNum] at h; cases h
  | aopClean a b => simp only [asAopNum] at h; injection h with h; exact h.symm
  | medNum x => simp only [asAopNum] at h; injection h with h; exact h.symm
  | medClean i t u => simp only [asAopNum] at h; injection h with h; exact h.symm

end InversionLemmas

section FilterLemmas

theorem sumValues_singleton (r : Row) : sumValues [r] = r.value := by
  simp [sumValues]

theorem isEndpointRow_of_pdf {r : Row}
    (h : containsRegex r.cfUnit "PDF.m2.yr" = true) : isEndpointRow r = true := by
  simp [isEndpointRow, h]

theorem isEndpointRow_of_daly {r : Row}
    (h : containsRegex r.cfUnit "DALY" = true) : isEndpointRow r = true := by
  simp [isEndpointRow, h]

theorem filter_filter_absorb (l : List Row) (p q : Row → Bool)
    (h : ∀ r, q r = true → p r = true) :
    (l.filter p).filter q = l.filter q := by
  induction l with
  | nil => rfl
  | cons a t ih =>
    by_cases hq : q a = true
    · have hp := h a hq
      simp [List.filter_cons, hp, hq, ih]
    · by_cases hp : p a = true <;> simp [List.filter_cons, hp, hq, ih]

theorem count_filter_split (l : List Row) (p : Row → Bool) (r : Row) :
    (l.filter p).count r + (l.filter (fun x => !p x)).count r = l.count r := by
  induction l with
  | nil => rfl
  | cons a t ih =>
    rw [List.filter_cons, List.filter_cons]
    by_cases hp : p a = true
    · rw [if_pos hp, if_neg (by simp [hp])]
      by_cases hr : a = r
      · subst hr
        rw [List.count_cons_self, List.count_cons_self]
        omega
      · rw [List.count_cons_of_ne (Ne.symm hr), List.count_cons_of_ne (Ne.symm hr)]
        exact ih
    · have hpf : p a = false := by
        cases hpa : p a
        · rfl
        · exact absurd hpa hp
      rw [if_neg (by simp [hpf]), if_pos (by simp [hpf])]
      by_cases hr : a = r
      · subst hr
        rw [List.count_cons_self, List.count_cons_self]
        omega
      · rw [List.count_cons_of_ne (Ne.symm hr), List.count_cons_of_ne (Ne.symm hr)]
        exact ih

end FilterLemmas

/-- C10: the category lists are derived from the use-phase table only:
impact_categories is unchanged when the construction table is replaced,
its midpoint list is the distinct categories of the use rows without an
endpoint marker, and its HH and EQ lists are the distinct categories of
the use endpoint rows whose unit is exactly "DALY" resp. "PDF.m2.yr";
a category present only in R_constr is therefore never listed. -/
theorem impact_categories_use_only (R_constr R_constr2 R_use : List Row) :
    impact_categories R_constr R_use = impact_categories R_constr2 R_use ∧
    (impact_categories R_constr R_use).1 =
      uniqueList ((R_use.filter (fun r => !isEndpointRow r)).map Row.impactCategory) ∧
    (impact_categories R_constr R_use).2.1 =
      uniqueList (((R_use.filter (fun r => isEndpointRow r)).filter
        (fun r => r.cfUnit == "DALY")).map Row.impactCategory) ∧
    (impact_categories R_constr R_use).2.2 =
      uniqueList (((R_use.filter (fun r => isEndpointRow r)).filter
        (fun r => r.cfUnit == "PDF.m2.yr")).map Row.impactCategory) :=
  ⟨rfl, rfl, rfl, rfl⟩

/-- Counterexample to the claim that the endpoint subset holds exactly
the rows whose unit CONTAINS one of the markers: the unit "PDFxm2xyr"
contains neither marker as a substring, yet the row lands in the
endpoint subset, because pandas reads "PDF.m2.yr" as a regular
expression whose dots match the letter x. -/
theorem sep_endpoint_regex_dot :
    (sep_midpoints_endpoints [] [⟨"T", "x", "PDFxm2xyr", 1⟩]).2.2.2 =
      [⟨"T", "x", "PDFxm2xyr", 1⟩] ∧
    ([⟨"T", "x", "PDFxm2xyr", 1⟩] : List Row).filter isEndpointRowLit = [] ∧
    (sep_midpoints_endpoints [] [⟨"T", "x", "PDFxm2xyr", 1⟩]).2.2.2 ≠
      ([⟨"T", "x", "PDFxm2xyr", 1⟩] : List Row).filter isEndpointRowLit := by
  refine ⟨by decide, by decide, by decide⟩

/-- C4 (amended): sep_midpoints_endpoints partitions each input table,
with the endpoint subset holding exactly the rows whose "CF unit"
matches the pattern "PDF.m2.yr" — each "." matching an arbitrary
character, as pandas interprets the pattern — or the pattern "DALY",
the midpoint subset holding exactly the remaining rows, and every row
appearing in exactly one subset (counted with multiplicity). -/
theorem sep_partition_regex (R_constr R_use : List Row) (r : Row) :
    ((r ∈ (sep_midpoints_endpoints R_constr R_use).2.2.1 ↔
        r ∈ R_constr ∧
        (containsRegex r.cfUnit "PDF.m2.yr" || containsRegex r.cfUnit "DALY") = true) ∧
     (r ∈ (sep_midpoints_endpoints R_constr R_use).1 ↔
        r ∈ R_constr ∧
        ¬ (containsRegex r.cfUnit "PDF.m2.yr" || containsRegex r.cfUnit "DALY") = true) ∧
     (sep_midpoints_endpoints R_constr R_use).1.count r +
       (sep_midpoints_endpoints R_constr R_use).2.2.1.count r = R_constr.count r) ∧
    ((r ∈ (sep_midpoints_endpoints R_constr R_use).2.2.2 ↔
        r ∈ R_use ∧
        (containsRegex r.cfUnit "PDF.m2.yr" || containsRegex r.cfUnit "DALY") = true) ∧
     (r ∈ (sep_midpoints_endpoints R_constr R_use).2.1 ↔
        r ∈ R_use ∧
        ¬ (containsRegex r.cfUnit "PDF.m2.yr" || containsRegex r.cfUnit "DALY") = true) ∧
     (sep_midpoints_endpoints R_constr R_use).2.1.count r +
       (sep_midpoints_endpoints R_constr R_use).2.2.2.count r = R_use.count r) := by
  refine ⟨⟨?_, ?_, ?_⟩, ?_, ?_, ?_⟩
  · simp [sep_midpoints_endpoints, List.mem_filter, isEndpointRow]
  · simp [sep_midpoints_endpoints, List.mem_filter, isEndpointRow]
  · rw [Nat.add_comm]
    exact count_filter_split R_constr (fun x => isEndpointRow x) r
  · simp [sep_midpoints_endpoints, List.mem_filter, isEndpointRow]
  · simp [sep_midpoints_endpoints, List.mem_filter, isEndpointRow]
  · rw [Nat.add_comm]
    exact count_filter_split R_use (fun x => isEndpointRow x) r

/-- Counterexample to the aop claim as worded: the use row with unit
"PDFxm2xyr" contains neither marker as a substring, so the worded
formula gives (0, 0), yet the code counts it towards ecosystem quality
because pandas matches "PDF.m2.yr" as a regular expression. -/
theorem impact_computation_aop_regex_dot :
    impact_computation "T" none 1 1 1 "aop" "number" [] [⟨"T", "x", "PDFxm2xyr", 1⟩] =
      .val (.aopNum 1 0) ∧
    aopNumberSpecLit "T" 1 1 1 [] [⟨"T", "x", "PDFxm2xyr", 1⟩] = (0, 0) ∧
    impact_computation "T" none 1 1 1 "aop" "number" [] [⟨"T", "x", "PDFxm2xyr", 1⟩] ≠
      .val (.aopNum (aopNumberSpecLit "T" 1 1 1 [] [⟨"T", "x", "PDFxm2xyr", 1⟩]).1
        (aopNumberSpecLit "T" 1 1 1 [] [⟨"T", "x", "PDFxm2xyr", 1⟩]).2) := by
  refine ⟨?_, ?_, ?_⟩
  · simp [impact_computation, aopCompute, sep_midpoints_endpoints, isEndpointRow,
      containsRegex, dotSearch, dotMatch, sumValues, List.filter, List.map, List.sum,
      String.toList, String.reduceEq]
  · simp [aopNumberSpecLit, litContains, litSearch, litMatch, sumValues,
      List.filter, List.map, List.sum, String.toList]
  · simp [impact_computation, aopCompute, aopNumberSpecLit, sep_midpoints_endpoints,
      isEndpointRow, containsRegex, litContains, litSearch, litMatch, dotSearch,
      dotMatch, sumValues, List.filter, List.map, List.sum, String.toList,
      String.reduceEq]

/-- C2 (amended): for every technology and tables, with a nonzero
conversion factor, the aop "number" computation returns the pair
[EQ, HH], where each component is the sum of the use-phase values of the
technology's rows whose "CF unit" MATCHES the pandas pattern
("PDF.m2.yr" with "." an arbitrary character, resp. "DALY"), divided by
conversion_factor and multiplied by use_value, plus the matching
construction-phase sum multiplied by capacity_factor. -/
theorem impact_computation_aop_number (tech : String) (impact : Option String)
    (conversion_factor capacity_factor use_value : ℚ) (R_constr R_use : List Row)
    (hcf : conversion_factor ≠ 0) :
    impact_computation tech impact conversion_factor capacity_factor use_value
      "aop" "number" R_constr R_use =
    .val (.aopNum
      (sumValues (R_use.filter
          (fun r => r.esName == tech && containsRegex r.cfUnit "PDF.m2.yr")) /
          conversion_factor * use_value
        + sumValues (R_constr.filter
            (fun r => r.esName == tech && containsRegex r.cfUnit "PDF.m2.yr")) *
          capacity_factor)
      (sumValues (R_use.filter
          (fun r => r.esName == tech && containsRegex r.cfUnit "DALY")) /
          conversion_factor * use_value
        + sumValues (R_constr.filter
            (fun r => r.esName == tech && containsRegex r.cfUnit "DALY")) *
          capacity_factor)) := by
  have hpdf : ∀ r : Row,
      (r.esName == tech && containsRegex r.cfUnit "PDF.m2.yr") = true →
      (fun x => isEndpointRow x) r = true := by
    intro r hr
    exact isEndpointRow_of_pdf ((Bool.and_eq_true _ _).mp hr).2
  have hdaly : ∀ r : Row,
      (r.esName == tech && containsRegex r.cfUnit "DALY") = true →
      (fun x => isEndpointRow x) r = true := by
    intro r hr
    exact isEndpointRow_of_daly ((Bool.and_eq_true _ _).mp hr).2
  simp only [impact_computation, sep_midpoints_endpoints]
  rw [if_pos trivial]
  simp only [aopCompute]
  rw [if_neg hcf]
  simp only [String.reduceEq, if_true, if_false]
  rw [filter_filter_absorb R_use (fun x => isEndpointRow x) _ hpdf,
    filter_filter_absorb R_constr (fun x => isEndpointRow x) _ hpdf,
    filter_filter_absorb R_use (fun x => isEndpointRow x) _ hdaly,
    filter_filter_absorb R_constr (fun x => isEndpointRow x) _ hdaly]
  congr 1
  congr 1 <;> ring

/-- Closed instance of the amended aop claim: a use table with one
endpoint row of each kind, all factors 1. -/
theorem impact_computation_aop_number_witness :
    impact_computation "T" none 1 1 1 "aop" "number" []
      [⟨"T", "eqcat", "PDF.m2.yr", 7⟩, ⟨"T", "hhcat", "DALY", 4⟩] =
    .val (.aopNum
      (sumValues (([⟨"T", "eqcat", "PDF.m2.yr", 7⟩, ⟨"T", "hhcat", "DALY", 4⟩] : List Row).filter
          (fun r => r.esName == "T" && containsRegex r.cfUnit "PDF.m2.yr")) / 1 * 1
        + sumValues (([] : List Row).filter
            (fun r => r.esName == "T" && containsRegex r.cfUnit "PDF.m2.yr")) * 1)
      (sumValues (([⟨"T", "eqcat", "PDF.m2.yr", 7⟩, ⟨"T", "hhcat", "DALY", 4⟩] : List Row).filter
          (fun r => r.esName == "T" && containsRegex r.cfUnit "DALY")) / 1 * 1
        + sumValues (([] : List Row).filter
            (fun r => r.esName == "T" && containsRegex r.cfUnit "DALY")) * 1)) :=
  impact_computation_aop_number "T" none 1 1 1 []
    [⟨"T", "eqcat", "PDF.m2.yr", 7⟩, ⟨"T", "hhcat", "DALY", 4⟩] (by norm_num)

theorem medCompute_single_match (tech impact : String)
    (conversion_factor capacity_factor use_value : ℚ) (dfc dfu : List Row)
    (rowC rowU : Row) (hcf : conversion_factor ≠ 0)
    (hC : dfc.filter (fun r => r.esName == tech && r.impactCategory == impact) = [rowC])
    (hU : dfu.filter (fun r => r.esName == tech && r.impactCategory == impact) = [rowU]) :
    medCompute tech (some impact) conversion_factor capacity_factor use_value
      "number" dfc dfu =
    .val (.medNum (rowU.value / conversion_factor * use_value +
      rowC.value * capacity_factor)) := by
  have hmem : rowC ∈ dfc.filter (fun r => r.impactCategory == impact) := by
    have h1 : rowC ∈ dfc.filter (fun r => r.esName == tech && r.impactCategory == impact) := by
      rw [hC]
      exact List.mem_singleton.mpr rfl
    have h2 := List.mem_filter.mp h1
    exact List.mem_filter.mpr ⟨h2.1, ((Bool.and_eq_true _ _).mp h2.2).2⟩
  obtain ⟨fr, l, hfl⟩ :=
    List.exists_cons_of_ne_nil (List.ne_nil_of_mem hmem)
  simp only [medCompute, matchesImpact_some]
  rw [hfl, iloc0_cons, pyBind_val, hC]
  simp only [List.map]
  rw [floatSeries_single, pyBind_val, if_neg hcf, hU]
  simp only [List.map]
  rw [floatSeries_single, pyBind_val]
  simp only [String.reduceEq, if_true, if_false]

/-- Counterexample to the claim that the midpoint/endpoint "number"
computation sums over matching rows: with two matching use rows the
code applies float() to a two-element Series and raises a TypeError
instead of returning the claimed sum 10. -/
theorem impact_computation_number_no_sum :
    impact_computation "T" (some "cc") 1 1 1 "midpoint" "number"
      [⟨"T", "cc", "kg", 2⟩] [⟨"T", "cc", "kg", 3⟩, ⟨"T", "cc", "kg", 5⟩] =
      .err .typeErr ∧
    impactNumberSpec "T" "cc" 1 1 1
      (sep_midpoints_endpoints [⟨"T", "cc", "kg", 2⟩]
        [⟨"T", "cc", "kg", 3⟩, ⟨"T", "cc", "kg", 5⟩]).1
      (sep_midpoints_endpoints [⟨"T", "cc", "kg", 2⟩]
        [⟨"T", "cc", "kg", 3⟩, ⟨"T", "cc", "kg", 5⟩]).2.1 = 10 ∧
    impact_computation "T" (some "cc") 1 1 1 "midpoint" "number"
      [⟨"T", "cc", "kg", 2⟩] [⟨"T", "cc", "kg", 3⟩, ⟨"T", "cc", "kg", 5⟩] ≠
      .val (.medNum 10) := by
  refine ⟨?_, ?_, ?_⟩
  · simp [impact_computation, medCompute, matchesImpact, iloc0_cons, iloc0_nil,
      floatSeries_nil, floatSeries_single, floatSeries_two, pyBind_err, pyBind_val,
      sep_midpoints_endpoints, isEndpointRow, containsRegex, dotSearch, dotMatch,
      List.filter, List.map, String.toList, String.reduceEq]
  · simp [impactNumberSpec, sumValues, sep_midpoints_endpoints, isEndpointRow,
      containsRegex, dotSearch, dotMatch, List.filter, List.map, List.sum,
      String.toList, String.reduceEq]
    norm_num
  · simp [impact_computation, medCompute, matchesImpact, iloc0_cons, iloc0_nil,
      floatSeries_nil, floatSeries_single, floatSeries_two, pyBind_err, pyBind_val,
      sep_midpoints_endpoints, isEndpointRow, containsRegex, dotSearch, dotMatch,
      List.filter, List.map, String.toList, String.reduceEq]

/-- C1 (amended): the midpoint/endpoint "number" computation returns the
claimed phase-sum formula over the corresponding subsets PROVIDED the
conversion factor is nonzero and exactly one row of each phase subset
matches the technology and impact category — the code applies float()
to the filtered Series without summing, so any other number of matching
rows raises instead. -/
theorem impact_computation_number_single_match
    (tech impact : String) (conversion_factor capacity_factor use_value : ℚ)
    (indicator : String) (R_constr R_use df_constr df_use : List Row)
    (rowC rowU : Row)
    (hsel : (indicator = "midpoint" ∧
        df_constr = (sep_midpoints_endpoints R_constr R_use).1 ∧
        df_use = (sep_midpoints_endpoints R_constr R_use).2.1) ∨
      (indicator = "endpoint" ∧
        df_constr = (sep_midpoints_endpoints R_constr R_use).2.2.1 ∧
        df_use = (sep_midpoints_endpoints R_constr R_use).2.2.2))
    (hcf : conversion_factor ≠ 0)
    (hC : df_constr.filter (fun r => r.esName == tech && r.impactCategory == impact) = [rowC])
    (hU : df_use.filter (fun r => r.esName == tech && r.impactCategory == impact) = [rowU]) :
    impact_computation tech (some impact) conversion_factor capacity_factor
      use_value indicator "number" R_constr R_use =
    .val (.medNum (impactNumberSpec tech impact conversion_factor capacity_factor
      use_value df_constr df_use)) := by
  have hval : impactNumberSpec tech impact conversion_factor capacity_factor
      use_value df_constr df_use =
      rowU.value / conversion_factor * use_value + rowC.value * capacity_factor := by
    unfold impactNumberSpec
    rw [hC, hU, sumValues_singleton, sumValues_singleton]
  rw [hval]
  rcases hsel with ⟨hind, hdc, hdu⟩ | ⟨hind, hdc, hdu⟩ <;> subst hind
  · simp only [impact_computation]
    simp only [String.reduceEq, if_true, if_false]
    rw [← hdc, ← hdu]
    exact medCompute_single_match tech impact conversion_factor capacity_factor
      use_value _ _ rowC rowU hcf hC hU
  · simp only [impact_computation]
    simp only [String.reduceEq, if_true, if_false]
    rw [← hdc, ← hdu]
    exact medCompute_single_match tech impact conversion_factor capacity_factor
      use_value _ _ rowC rowU hcf hC hU

/-- Closed instance of the amended single-match claim: one matching row
per phase, all factors 1. -/
theorem impact_computation_number_single_match_witness :
    impact_computation "T" (some "cc") 1 1 1 "midpoint" "number"
      [⟨"T", "cc", "kg", 2⟩] [⟨"T", "cc", "kg", 3⟩] =
    .val (.medNum (impactNumberSpec "T" "cc" 1 1 1
      (sep_midpoints_endpoints [⟨"T", "cc", "kg", 2⟩] [⟨"T", "cc", "kg", 3⟩]).1
      (sep_midpoints_endpoints [⟨"T", "cc", "kg", 2⟩] [⟨"T", "cc", "kg", 3⟩]).2.1)) :=
  impact_computation_number_single_match "T" "cc" 1 1 1 "midpoint"
    [⟨"T", "cc", "kg", 2⟩] [⟨"T", "cc", "kg", 3⟩]
    (sep_midpoints_endpoints [⟨"T", "cc", "kg", 2⟩] [⟨"T", "cc", "kg", 3⟩]).1
    (sep_midpoints_endpoints [⟨"T", "cc", "kg", 2⟩] [⟨"T", "cc", "kg", 3⟩]).2.1
    ⟨"T", "cc", "kg", 2⟩ ⟨"T", "cc", "kg", 3⟩
    (Or.inl ⟨rfl, rfl, rfl⟩) (by norm_num) (by decide) (by decide)

theorem medCompute_no_val (tech : String) (impact : Option String)
    (conversion_factor capacity_factor use_value : ℚ) (format : String)
    (dfc dfu : List Row) (h1 : format ≠ "clean") (h2 : format ≠ "number")
    (v : PyVal) :
    medCompute tech impact conversion_factor capacity_factor use_value format
      dfc dfu ≠ .val v := by
  intro h
  unfold medCompute at h
  obtain ⟨fr, hfr, h⟩ := pyBind_eq_val h
  obtain ⟨cv, hcv, h⟩ := pyBind_eq_val h
  by_cases hcf : conversion_factor = 0
  · rw [if_pos hcf] at h
    cases h
  · rw [if_neg hcf] at h
    obtain ⟨uq, huq, h⟩ := pyBind_eq_val h
    simp only [if_neg h1, if_neg h2] at h
    cases h

/-- Counterexample to the claim that a recognized indicator with an
unknown format returns None without an error: with indicator "aop" and
format "xyz" the aop block falls through to line 85, where df_constr was
never assigned, and the call raises a NameError instead. -/
theorem impact_computation_aop_format_fallthrough :
    impact_computation "T" none 1 1 1 "aop" "xyz" [] [] = .err .nameErr ∧
    impact_computation "T" none 1 1 1 "aop" "xyz" [] [] ≠ .pynone := by
  refine ⟨?_, ?_⟩
  · simp [impact_computation, aopCompute, sep_midpoints_endpoints, String.reduceEq]
  · simp [impact_computation, aopCompute, sep_midpoints_endpoints, String.reduceEq]

/-- C9 (amended): impact_computation validates nothing.  With an
indicator outside aop/midpoint/endpoint the phase tables are never
assigned and line 85 raises a NameError; with a recognized indicator and
a format outside clean/number the call never returns a value — the
midpoint and endpoint branches fall off the function end (None) when
their phase computations succeed and otherwise propagate that error,
while the aop branch falls through to line 85 and raises a NameError. -/
theorem impact_computation_validation :
    (∀ (tech : String) (impact : Option String)
        (conversion_factor capacity_factor use_value : ℚ)
        (indicator format : String) (R_constr R_use : List Row),
        indicator ≠ "aop" → indicator ≠ "midpoint" → indicator ≠ "endpoint" →
        impact_computation tech impact conversion_factor capacity_factor
          use_value indicator format R_constr R_use = .err .nameErr) ∧
    (∀ (tech : String) (impact : Option String)
        (conversion_factor capacity_factor use_value : ℚ)
        (format : String) (R_constr R_use : List Row),
        format ≠ "clean" → format ≠ "number" → conversion_factor ≠ 0 →
        impact_computation tech impact conversion_factor capacity_factor
          use_value "aop" format R_constr R_use = .err .nameErr) ∧
    (∀ (tech : String) (impact : Option String)
        (conversion_factor capacity_factor use_value : ℚ)
        (indicator format : String) (R_constr R_use : List Row) (v : PyVal),
        (indicator = "midpoint" ∨ indicator = "endpoint") →
        format ≠ "clean" → format ≠ "number" →
        impact_computation tech impact conversion_factor capacity_factor
          use_value indicator format R_constr R_use ≠ .val v) := by
  refine ⟨?_, ?_, ?_⟩
  · intro tech impact cf cp uv indicator format Rc Ru h1 h2 h3
    simp only [impact_computation]
    rw [if_neg h1, if_neg h2, if_neg h3]
  · intro tech impact cf cp uv format Rc Ru hf1 hf2 hcf
    simp only [impact_computation]
    rw [if_pos trivial]
    unfold aopCompute
    rw [if_neg hcf]
    simp only [if_neg hf1, if_neg hf2]
  · intro tech impact cf cp uv indicator format Rc Ru v hind hf1 hf2
    rcases hind with rfl | rfl
    · simp only [impact_computation]
      simp only [String.reduceEq, if_true, if_false]
      exact medCompute_no_val tech impact cf cp uv format _ _ hf1 hf2 v
    · simp only [impact_computation]
      simp only [String.reduceEq, if_true, if_false]
      exact medCompute_no_val tech impact cf cp uv format _ _ hf1 hf2 v

/-- Closed instances of the validation behavior: an unknown indicator
raises a NameError, and indicator "midpoint" with format "xyz" on
one-row tables returns None rather than a value. -/
theorem impact_computation_validation_witness :
    impact_computation "T" none 1 1 1 "foo" "number" [] [] = .err .nameErr ∧
    impact_computation "T" none 1 1 1 "aop" "xyzz" [] [] = .err .nameErr ∧
    impact_computation "T" (some "cc") 1 1 1 "midpoint" "xyz"
      [⟨"T", "cc", "kg", 2⟩] [⟨"T", "cc", "kg", 3⟩] ≠ .val (.medNum 5) :=
  ⟨impact_computation_validation.1 "T" none 1 1 1 "foo" "number" [] []
      (by decide) (by decide) (by decide),
   impact_computation_validation.2.1 "T" none 1 1 1 "xyzz" [] []
      (by decide) (by decide) (by norm_num),
   impact_computation_validation.2.2 "T" (some "cc") 1 1 1 "midpoint" "xyz"
      [⟨"T", "cc", "kg", 2⟩] [⟨"T", "cc", "kg", 3⟩] (.medNum 5)
      (Or.inl rfl) (by decide) (by decide)⟩

theorem addDelta_err : ∀ {l : List OutRow} {e : PyErr},
    addDelta l = .err e → e = .zeroDiv := by
  intro l
  induction l with
  | nil => intro e h; rw [addDelta_nil] at h; cases h
  | cons r rs ih =>
    intro e h
    rw [addDelta_cons] at h
    by_cases hb : r.brightway = 0
    · rw [if_pos hb] at h
      injection h with h
      exact h.symm
    · rw [if_neg hb] at h
      rcases pyBind_eq_err h with h1 | ⟨ds, hds, h2⟩
      · exact ih h1
      · cases h2

theorem addDelta_total : ∀ {l : List OutRow},
    (∀ r ∈ l, r.brightway ≠ 0) → ∃ ds, addDelta l = .val ds := by
  intro l
  induction l with
  | nil => intro _; exact ⟨[], addDelta_nil⟩
  | cons r rs ih =>
    intro h
    obtain ⟨ds, hds⟩ := ih (fun x hx => h x (List.mem_cons_of_mem r hx))
    refine ⟨⟨r.label, r.es_moo, r.brightway,
      (r.brightway - r.es_moo) / r.brightway⟩ :: ds, ?_⟩
    rw [addDelta_cons, if_neg (h r (List.mem_cons_self r rs)), hds, pyBind_val]

theorem addDelta_val_triples : ∀ {l : List OutRow} {ds : List DeltaRow},
    addDelta l = .val ds →
    ds.map (fun d => (d.label, d.es_moo, d.brightway)) =
      l.map (fun r => (r.label, r.es_moo, r.brightway)) ∧
    ∀ d ∈ ds, d.brightway ≠ 0 ∧ d.delta = (d.brightway - d.es_moo) / d.brightway := by
  intro l
  induction l with
  | nil =>
    intro ds h
    rw [addDelta_nil] at h
    injection h with h
    subst h
    exact ⟨rfl, by intro d hd; cases hd⟩
  | cons r rs ih =>
    intro ds h
    rw [addDelta_cons] at h
    by_cases hb : r.brightway = 0
    · rw [if_pos hb] at h
      cases h
    · rw [if_neg hb] at h
      obtain ⟨ds0, hds0, h2⟩ := pyBind_eq_val h
      injection h2 with h2
      subst h2
      obtain ⟨ihm, ihp⟩ := ih hds0
      refine ⟨?_, ?_⟩
      · simp only [List.map_cons, ihm]
      · intro d hd
        rcases List.mem_cons.mp hd with rfl | hd
        · exact ⟨hb, rfl⟩
        · exact ihp d hd

theorem sumLookups_err {df : List (String × ℚ)} {method : String} :
    ∀ {cats : List String} {acc : ℚ} {e : PyErr},
      sumLookups df method cats acc = .err e → e = .keyErr := by
  intro cats
  induction cats with
  | nil => intro acc e h; rw [sumLookups_nil] at h; cases h
  | cons c cs ih =>
    intro acc e h
    rw [sumLookups_cons] at h
    rcases pyBind_eq_err h with h1 | ⟨v, hv, h2⟩
    · exact getCol_err h1
    · exact ih h2

theorem sumLookups_val {df : List (String × ℚ)} {method : String} :
    ∀ {cats : List String} {acc s : ℚ},
      sumLookups df method cats acc = .val s →
      ∀ f : String → ℚ,
        (∀ c ∈ cats, dfLookup df (method ++ c) = some (f c)) →
        s = acc + (cats.map f).sum := by
  intro cats
  induction cats with
  | nil =>
    intro acc s h f hf
    rw [sumLookups_nil] at h
    injection h with h
    simp [← h]
  | cons c cs ih =>
    intro acc s h f hf
    rw [sumLookups_cons] at h
    obtain ⟨v, hv, h2⟩ := pyBind_eq_val h
    have hvf : v = f c := by
      have hl := getCol_val hv
      rw [hf c (List.mem_cons_self c cs)] at hl
      injection hl with hl
      exact hl.symm
    subst hvf
    have := ih h2 f (fun x hx => hf x (List.mem_cons_of_mem c hx))
    rw [this]
    simp [List.sum_cons]
    ring

theorem compLoop_val {tech : String} {cf cp uv : ℚ} {ind : String}
    {dfbw : List (String × ℚ)} {method : String} {Rc Ru : List Row} :
    ∀ {cats : List String} {rows : List OutRow},
      compLoop tech cf cp uv ind dfbw method Rc Ru cats = .val rows →
      rows.map OutRow.label = cats ∧
      ∀ r ∈ rows,
        impact_computation tech (some r.label) cf cp uv ind "number" Rc Ru =
          .val (.medNum r.es_moo) ∧
        dfLookup dfbw (method ++ r.label) = some r.brightway := by
  intro cats
  induction cats with
  | nil =>
    intro rows h
    rw [compLoop_nil] at h
    injection h with h
    subst h
    exact ⟨rfl, by intro r hr; cases hr⟩
  | cons c cs ih =>
    intro rows h
    rw [compLoop_cons] at h
    obtain ⟨bw, hbw, h⟩ := pyBind_eq_val h
    obtain ⟨x, hx, h⟩ := pyBind_eq_val h
    obtain ⟨rest, hrest, h⟩ := pyBind_eq_val h
    injection h with h
    subst h
    obtain ⟨v, hv, hvx⟩ := pyBind_eq_val hx
    have hveq := asMedNum_val hvx
    subst hveq
    obtain ⟨ihl, ihp⟩ := ih hrest
    refine ⟨?_, ?_⟩
    · simp only [List.map_cons, ihl]
    · intro r hr
      rcases List.mem_cons.mp hr with rfl | hr
      · exact ⟨hv, getCol_val hbw⟩
      · exact ihp r hr

theorem compLoop_no_zeroDiv {tech : String} {cf cp uv : ℚ} {ind : String}
    {dfbw : List (String × ℚ)} {method : String} {Rc Ru : List Row}
    (hnz : ∀ (imp : Option String) (format : String),
      impact_computation tech imp cf cp uv ind format Rc Ru ≠ .err .zeroDiv) :
    ∀ cats, compLoop tech cf cp uv ind dfbw method Rc Ru cats ≠ .err .zeroDiv := by
  intro cats
  induction cats with
  | nil => rw [compLoop_nil]; simp
  | cons c cs ih =>
    intro h
    rw [compLoop_cons] at h
    rcases pyBind_eq_err h with h1 | ⟨bw, hbw, h⟩
    · exact absurd (getCol_err h1) (by decide)
    · rcases pyBind_eq_err h with h1 | ⟨x, hx, h⟩
      · rcases pyBind_eq_err h1 with h2 | ⟨v, hv, h2⟩
        · exact hnz (some c) "number" h2
        · exact absurd (asMedNum_err h2) (by decide)
      · rcases pyBind_eq_err h with h2 | ⟨rest, hrest, h2⟩
        · exact ih h2
        · cases h2

theorem medCompute_no_zeroDiv (tech : String) (impact : Option String)
    (cf cp uv : ℚ) (format : String) (dfc dfu : List Row) (hcf : cf ≠ 0) :
    medCompute tech impact cf cp uv format dfc dfu ≠ .err .zeroDiv := by
  intro h
  unfold medCompute at h
  rcases pyBind_eq_err h with h1 | ⟨fr, hfr, h⟩
  · exact absurd (iloc0_err h1) (by decide)
  · rcases pyBind_eq_err h with h1 | ⟨cv, hcv, h⟩
    · exact absurd (floatSeries_err h1) (by decide)
    · rw [if_neg hcf] at h
      rcases pyBind_eq_err h with h1 | ⟨uq, huq, h⟩
      · exact absurd (floatSeries_err h1) (by decide)
      · by_cases h1 : format = "clean"
        · simp only [if_pos h1] at h
          cases h
        · by_cases h2 : format = "number"
          · simp only [if_neg h1, if_pos h2] at h
            cases h
          · simp only [if_neg h1, if_neg h2] at h
            cases h

theorem aopCompute_no_zeroDiv (tech : String) (cf cp uv : ℚ) (format : String)
    (Rce Rue : List Row) (hcf : cf ≠ 0) :
    aopCompute tech cf cp uv format Rce Rue ≠ .err .zeroDiv := by
  intro h
  unfold aopCompute at h
  rw [if_neg hcf] at h
  by_cases h1 : format = "clean"
  · simp only [if_pos h1] at h
    cases h
  · by_cases h2 : format = "number"
    · simp only [if_neg h1, if_pos h2] at h
      cases h
    · simp only [if_neg h1, if_neg h2] at h
      injection h with h
      cases h

theorem impact_computation_no_zeroDiv (tech : String) (impact : Option String)
    (cf cp uv : ℚ) (indicator format : String) (Rc Ru : List Row)
    (hcf : cf ≠ 0) :
    impact_computation tech impact cf cp uv indicator format Rc Ru ≠
      .err .zeroDiv := by
  intro h
  simp only [impact_computation] at h
  by_cases h1 : indicator = "aop"
  · rw [if_pos h1] at h
    exact aopCompute_no_zeroDiv _ _ _ _ _ _ _ hcf h
  · rw [if_neg h1] at h
    by_cases h2 : indicator = "midpoint"
    · rw [if_pos h2] at h
      exact medCompute_no_zeroDiv _ _ _ _ _ _ _ _ hcf h
    · rw [if_neg h2] at h
      by_cases h3 : indicator = "endpoint"
      · rw [if_pos h3] at h
        exact medCompute_no_zeroDiv _ _ _ _ _ _ _ _ hcf h
      · rw [if_neg h3] at h
        injection h with h
        cases h

theorem comparisonCore_no_zeroDiv (tech : String) (cf cp uv : ℚ)
    (indicator : String) (dfm dfe : List (String × ℚ)) (Rc Ru : List Row)
    (hcf : cf ≠ 0) :
    comparisonCore tech cf cp uv indicator dfm dfe Rc Ru ≠ .err .zeroDiv := by
  intro h
  simp only [comparisonCore] at h
  by_cases h1 : indicator = "aop"
  · rw [if_pos h1] at h
    rcases pyBind_eq_err h with h2 | ⟨eqbw, heq, h⟩
    · exact absurd (sumLookups_err h2) (by decide)
    · rcases pyBind_eq_err h with h2 | ⟨hhbw, hhh, h⟩
      · exact absurd (sumLookups_err h2) (by decide)
      · rcases pyBind_eq_err h with h2 | ⟨p, hp, h2⟩
        · rcases pyBind_eq_err h2 with h3 | ⟨v, hv, h3⟩
          · exact impact_computation_no_zeroDiv _ _ _ _ _ _ _ _ _ hcf h3
          · exact absurd (asAopNum_err h3) (by decide)
        · cases h2
  · rw [if_neg h1] at h
    by_cases h2 : indicator = "midpoint"
    · rw [if_pos h2] at h
      exact compLoop_no_zeroDiv
        (fun imp format => impact_computation_no_zeroDiv _ _ _ _ _ _ _ _ _ hcf)
        _ h
    · rw [if_neg h2] at h
      by_cases h3 : indicator = "endpoint"
      · rw [if_pos h3] at h
        rcases pyBind_eq_err h with h4 | ⟨l1, hl1, h4⟩
        · exact compLoop_no_zeroDiv
            (fun imp format => impact_computation_no_zeroDiv _ _ _ _ _ _ _ _ _ hcf)
            _ h4
        · rcases pyBind_eq_err h4 with h5 | ⟨l2, hl2, h5⟩
          · exact compLoop_no_zeroDiv
              (fun imp format => impact_computation_no_zeroDiv _ _ _ _ _ _ _ _ _ hcf)
              _ h5
          · cases h5
      · rw [if_neg h3] at h
        injection h with h
        cases h

/-- C8: with conversion_factor nonzero and every brightway entry of the
assembled table nonzero, no division by zero is reachable: neither
impact_computation (any indicator and format) nor comparison can produce
the division-by-zero outcome. -/
theorem no_zero_division_under_preconditions
    (tech : String) (impact : Option String)
    (conversion_factor capacity_factor use_value : ℚ)
    (indicator format : String) (df_bw_mid df_bw_end : List (String × ℚ))
    (R_constr R_use : List Row)
    (hcf : conversion_factor ≠ 0)
    (hbw : ∀ t, comparisonCore tech conversion_factor capacity_factor use_value
        indicator df_bw_mid df_bw_end R_constr R_use = .val t →
      ∀ r ∈ t, r.brightway ≠ 0) :
    impact_computation tech impact conversion_factor capacity_factor use_value
      indicator format R_constr R_use ≠ .err .zeroDiv ∧
    comparison tech conversion_factor capacity_factor use_value indicator
      df_bw_mid df_bw_end R_constr R_use ≠ .err .zeroDiv := by
  refine ⟨impact_computation_no_zeroDiv _ _ _ _ _ _ _ _ _ hcf, ?_⟩
  intro h
  unfold comparison at h
  rcases pyBind_eq_err h with h1 | ⟨t, ht, h2⟩
  · exact comparisonCore_no_zeroDiv _ _ _ _ _ _ _ _ _ hcf h1
  · obtain ⟨ds, hds⟩ := addDelta_total (hbw t ht)
    rw [hds] at h2
    cases h2

/-- C3: every row of a table returned by comparison carries
delta = (brightway - es_moo) / brightway. -/
theorem comparison_delta_formula (tech : String)
    (conversion_factor capacity_factor use_value : ℚ) (indicator : String)
    (df_bw_mid df_bw_end : List (String × ℚ)) (R_constr R_use : List Row)
    (t : List DeltaRow)
    (h : comparison tech conversion_factor capacity_factor use_value indicator
      df_bw_mid df_bw_end R_constr R_use = .val t) :
    ∀ r ∈ t, r.delta = (r.brightway - r.es_moo) / r.brightway := by
  unfold comparison at h
  obtain ⟨t0, hcore, h2⟩ := pyBind_eq_val h
  intro r hr
  exact ((addDelta_val_triples h2).2 r hr).2

/-- Closed instance of the delta formula on a one-category midpoint
comparison. -/
theorem comparison_delta_formula_witness :
    (⟨"cc", 5, 5, 0⟩ : DeltaRow).delta = (((5 : ℚ) - 5) / 5) :=
  comparison_delta_formula "T" 1 1 1 "midpoint"
    [("IMPACT World+ Midpoint 2.0 | Midpoint | cc", 5)] []
    [⟨"T", "cc", "kg", 2⟩] [⟨"T", "cc", "kg", 3⟩]
    [⟨"cc", 5, 5, 0⟩]
    (by
      simp [comparison, comparisonCore, compLoop_nil, compLoop_cons,
        impact_categories, uniqueList, dfLookup, getCol_eq, addDelta_nil,
        addDelta_cons, impact_computation, aopCompute, medCompute,
        matchesImpact_some, iloc0_nil, iloc0_cons, floatSeries_nil,
        floatSeries_single, floatSeries_two, asMedNum_medNum, asAopNum_aopNum,
        pyBind_err, pyBind_pynone, pyBind_val, sep_midpoints_endpoints,
        isEndpointRow, containsRegex, dotSearch, dotMatch, sumValues,
        sumLookups_nil, sumLookups_cons, method_midpoint, method_endpoint_EQ,
        method_endpoint_HH, pyStr, List.filter, List.map, List.sum, List.foldl,
        List.find?, String.toList, String.reduceEq]
      norm_num)
    ⟨"cc", 5, 5, 0⟩ (List.mem_singleton.mpr rfl)

/-- Closed instance of the no-division-by-zero property on a one-category
midpoint comparison with nonzero factors and reference values. -/
theorem no_zero_division_witness :
    impact_computation "T" (some "cc") 1 1 1 "midpoint" "number"
      [⟨"T", "cc", "kg", 2⟩] [⟨"T", "cc", "kg", 3⟩] ≠ .err .zeroDiv ∧
    comparison "T" 1 1 1 "midpoint"
      [("IMPACT World+ Midpoint 2.0 | Midpoint | cc", 5)] []
      [⟨"T", "cc", "kg", 2⟩] [⟨"T", "cc", "kg", 3⟩] ≠ .err .zeroDiv :=
  no_zero_division_under_preconditions "T" (some "cc") 1 1 1 "midpoint" "number"
    [("IMPACT World+ Midpoint 2.0 | Midpoint | cc", 5)] []
    [⟨"T", "cc", "kg", 2⟩] [⟨"T", "cc", "kg", 3⟩] (by norm_num)
    (by
      intro t ht
      rw [show comparisonCore "T" 1 1 1 "midpoint"
          [("IMPACT World+ Midpoint 2.0 | Midpoint | cc", 5)] []
          [⟨"T", "cc", "kg", 2⟩] [⟨"T", "cc", "kg", 3⟩] = .val [⟨"cc", 5, 5⟩] from by
        simp [comparisonCore, compLoop_nil, compLoop_cons, impact_categories,
          uniqueList, dfLookup, getCol_eq, impact_computation, aopCompute,
          medCompute, matchesImpact_some, iloc0_nil, iloc0_cons, floatSeries_nil,
          floatSeries_single, floatSeries_two, asMedNum_medNum, asAopNum_aopNum,
          pyBind_err, pyBind_pynone, pyBind_val, sep_midpoints_endpoints,
          isEndpointRow, containsRegex, dotSearch, dotMatch, sumValues,
          sumLookups_nil, sumLookups_cons, method_midpoint, method_endpoint_EQ,
          method_endpoint_HH, pyStr, List.filter, List.map, List.sum, List.foldl,
          List.find?, String.toList, String.reduceEq]
        norm_num] at ht
      injection ht with ht
      subst ht
      intro r hr
      rcases List.mem_singleton.mp hr with rfl
      norm_num)

/-- C5: for indicator "midpoint" the comparison table has one row per
distinct midpoint impact category of the use-phase table, each pairing
the impact_computation number with the reference-table value of the
method-stem column; for indicator "endpoint" the rows are the
human-health endpoint categories followed by the ecosystem-quality
endpoint categories, paired the same way with the endpoint reference
table and its two method stems. -/
theorem comparison_rows_structure
    (tech : String) (conversion_factor capacity_factor use_value : ℚ)
    (df_bw_mid df_bw_end : List (String × ℚ)) (R_constr R_use : List Row)
    (t t2 : List DeltaRow)
    (hmid : comparison tech conversion_factor capacity_factor use_value
      "midpoint" df_bw_mid df_bw_end R_constr R_use = .val t)
    (hend : comparison tech conversion_factor capacity_factor use_value
      "endpoint" df_bw_mid df_bw_end R_constr R_use = .val t2) :
    (∃ l : List OutRow,
      t.map (fun d => (d.label, d.es_moo, d.brightway)) =
        l.map (fun r => (r.label, r.es_moo, r.brightway)) ∧
      l.map OutRow.label = (impact_categories R_constr R_use).1 ∧
      ∀ r ∈ l,
        impact_computation tech (some r.label) conversion_factor capacity_factor
          use_value "midpoint" "number" R_constr R_use = .val (.medNum r.es_moo) ∧
        dfLookup df_bw_mid (method_midpoint ++ r.label) = some r.brightway) ∧
    (∃ l1 l2 : List OutRow,
      t2.map (fun d => (d.label, d.es_moo, d.brightway)) =
        (l1 ++ l2).map (fun r => (r.label, r.es_moo, r.brightway)) ∧
      l1.map OutRow.label = (impact_categories R_constr R_use).2.1 ∧
      l2.map OutRow.label = (impact_categories R_constr R_use).2.2 ∧
      (∀ r ∈ l1,
        impact_computation tech (some r.label) conversion_factor capacity_factor
          use_value "endpoint" "number" R_constr R_use = .val (.medNum r.es_moo) ∧
        dfLookup df_bw_end (method_endpoint_HH ++ r.label) = some r.brightway) ∧
      (∀ r ∈ l2,
        impact_computation tech (some r.label) conversion_factor capacity_factor
          use_value "endpoint" "number" R_constr R_use = .val (.medNum r.es_moo) ∧
        dfLookup df_bw_end (method_endpoint_EQ ++ r.label) = some r.brightway)) := by
  constructor
  · unfold comparison at hmid
    obtain ⟨t0, hcore, hdelta⟩ := pyBind_eq_val hmid
    simp only [comparisonCore] at hcore
    simp only [String.reduceEq, if_true, if_false] at hcore
    obtain ⟨hl, hp⟩ := compLoop_val hcore
    exact ⟨t0, (addDelta_val_triples hdelta).1, hl, hp⟩
  · unfold comparison at hend
    obtain ⟨t0, hcore, hdelta⟩ := pyBind_eq_val hend
    simp only [comparisonCore] at hcore
    simp only [String.reduceEq, if_true, if_false] at hcore
    obtain ⟨l1, h1, hcore⟩ := pyBind_eq_val hcore
    obtain ⟨l2, h2, hcore⟩ := pyBind_eq_val hcore
    injection hcore with hcore
    subst hcore
    obtain ⟨hl1, hp1⟩ := compLoop_val h1
    obtain ⟨hl2, hp2⟩ := compLoop_val h2
    exact ⟨l1, l2, (addDelta_val_triples hdelta).1, hl1, hl2, hp1, hp2⟩

/-- Closed instance of the comparison-row pairing for the midpoint
indicator: category "cc" pairs the computed number 5 with the reference
value 5. -/
theorem comparison_rows_structure_witness :
    impact_computation "T" (some "cc") 1 1 1 "midpoint" "number"
      [⟨"T", "cc", "kg", 2⟩, ⟨"T", "hhcat", "DALY", 4⟩, ⟨"T", "eqcat", "PDF.m2.yr", 6⟩]
      [⟨"T", "cc", "kg", 3⟩, ⟨"T", "hhcat", "DALY", 5⟩, ⟨"T", "eqcat", "PDF.m2.yr", 7⟩] =
      .val (.medNum 5) ∧
    dfLookup [("IMPACT World+ Midpoint 2.0 | Midpoint | cc", 5)]
      (method_midpoint ++ "cc") = some 5 := by
  obtain ⟨l, hmap, hlab, hfacts⟩ :=
    (comparison_rows_structure "T" 1 1 1
      [("IMPACT World+ Midpoint 2.0 | Midpoint | cc", 5)]
      [("IMPACT World+ Damage 2.0 | Human health | hhcat", 9),
       ("IMPACT World+ Damage 2.0 | Ecosystem quality | eqcat", 13)]
      [⟨"T", "cc", "kg", 2⟩, ⟨"T", "hhcat", "DALY", 4⟩, ⟨"T", "eqcat", "PDF.m2.yr", 6⟩]
      [⟨"T", "cc", "kg", 3⟩, ⟨"T", "hhcat", "DALY", 5⟩, ⟨"T", "eqcat", "PDF.m2.yr", 7⟩]
      [⟨"cc", 5, 5, 0⟩] [⟨"hhcat", 9, 9, 0⟩, ⟨"eqcat", 13, 13, 0⟩]
      (by
        simp [comparison, comparisonCore, compLoop_nil, compLoop_cons,
          impact_categories, uniqueList, dfLookup, getCol_eq, addDelta_nil,
          addDelta_cons, impact_computation, aopCompute, medCompute,
          matchesImpact_some, iloc0_nil, iloc0_cons, floatSeries_nil,
          floatSeries_single, floatSeries_two, asMedNum_medNum, asAopNum_aopNum,
          pyBind_err, pyBind_pynone, pyBind_val, sep_midpoints_endpoints,
          isEndpointRow, containsRegex, dotSearch, dotMatch, sumValues,
          sumLookups_nil, sumLookups_cons, method_midpoint, method_endpoint_EQ,
          method_endpoint_HH, pyStr, List.filter, List.map, List.sum, List.foldl,
          List.find?, String.toList, String.reduceEq]
        norm_num)
      (by
        simp [comparison, comparisonCore, compLoop_nil, compLoop_cons,
          impact_categories, uniqueList, dfLookup, getCol_eq, addDelta_nil,
          addDelta_cons, impact_computation, aopCompute, medCompute,
          matchesImpact_some, iloc0_nil, iloc0_cons, floatSeries_nil,
          floatSeries_single, floatSeries_two, asMedNum_medNum, asAopNum_aopNum,
          pyBind_err, pyBind_pynone, pyBind_val, sep_midpoints_endpoints,
          isEndpointRow, containsRegex, dotSearch, dotMatch, sumValues,
          sumLookups_nil, sumLookups_cons, method_midpoint, method_endpoint_EQ,
          method_endpoint_HH, pyStr, List.filter, List.map, List.sum, List.foldl,
          List.find?, String.toList, String.reduceEq]
        norm_num)).1
  cases l with
  | nil => simp at hmap
  | cons r l2 =>
    cases l2 with
    | cons a b => simp at hmap
    | nil =>
      simp only [List.map_cons, List.map_nil] at hmap
      have h1 : ("cc", (5 : ℚ), (5 : ℚ)) = (r.label, r.es_moo, r.brightway) := by
        injection hmap
      obtain ⟨ha, hb, hc⟩ :
          "cc" = r.label ∧ (5 : ℚ) = r.es_moo ∧ (5 : ℚ) = r.brightway := by
        simpa [Prod.ext_iff] using h1
      have hf := hfacts r (List.mem_singleton.mpr rfl)
      rw [← ha, ← hb, ← hc] at hf
      exact hf

/-- C6: for indicator "aop" the table has the "Human health" row then
the "Ecosystem quality" row, and each recorded brightway value is the
sum, over that area's endpoint categories of the use-phase table, of the
endpoint reference values in the matching method-stem columns. -/
theorem comparison_aop_brightway_sums (tech : String)
    (conversion_factor capacity_factor use_value : ℚ)
    (df_bw_mid df_bw_end : List (String × ℚ)) (R_constr R_use : List Row)
    (t : List DeltaRow)
    (h : comparison tech conversion_factor capacity_factor use_value "aop"
      df_bw_mid df_bw_end R_constr R_use = .val t) :
    ∃ hh_es hh_bw eq_es eq_bw : ℚ,
      t.map (fun d => (d.label, d.es_moo, d.brightway)) =
        [("Human health", hh_es, hh_bw), ("Ecosystem quality", eq_es, eq_bw)] ∧
      (∀ f : String → ℚ,
        (∀ c ∈ (impact_categories R_constr R_use).2.1,
          dfLookup df_bw_end (method_endpoint_HH ++ c) = some (f c)) →
        hh_bw = (((impact_categories R_constr R_use).2.1).map f).sum) ∧
      (∀ g : String → ℚ,
        (∀ c ∈ (impact_categories R_constr R_use).2.2,
          dfLookup df_bw_end (method_endpoint_EQ ++ c) = some (g c)) →
        eq_bw = (((impact_categories R_constr R_use).2.2).map g).sum) := by
  unfold comparison at h
  obtain ⟨t0, hcore, hdelta⟩ := pyBind_eq_val h
  simp only [comparisonCore] at hcore
  simp only [String.reduceEq, if_true, if_false] at hcore
  obtain ⟨eqbw, heq, hcore⟩ := pyBind_eq_val hcore
  obtain ⟨hhbw, hhh, hcore⟩ := pyBind_eq_val hcore
  obtain ⟨p, hp, hcore⟩ := pyBind_eq_val hcore
  injection hcore with hcore
  subst hcore
  refine ⟨p.2, hhbw, p.1, eqbw, ?_, ?_, ?_⟩
  · rw [(addDelta_val_triples hdelta).1]
    simp [List.map]
  · intro f hf
    have := sumLookups_val hhh f hf
    simpa using this
  · intro g hg
    have := sumLookups_val heq g hg
    simpa using this

/-- Closed instance of the aop brightway sums: one endpoint category per
area, reference values 9 (HH) and 13 (EQ). -/
theorem comparison_aop_brightway_sums_witness :
    (9 : ℚ) = (((impact_categories
        [⟨"T", "cc", "kg", 2⟩, ⟨"T", "hhcat", "DALY", 4⟩, ⟨"T", "eqcat", "PDF.m2.yr", 6⟩]
        [⟨"T", "cc", "kg", 3⟩, ⟨"T", "hhcat", "DALY", 5⟩, ⟨"T", "eqcat", "PDF.m2.yr", 7⟩]).2.1).map
      (fun _ => (9 : ℚ))).sum ∧
    (13 : ℚ) = (((impact_categories
        [⟨"T", "cc", "kg", 2⟩, ⟨"T", "hhcat", "DALY", 4⟩, ⟨"T", "eqcat", "PDF.m2.yr", 6⟩]
        [⟨"T", "cc", "kg", 3⟩, ⟨"T", "hhcat", "DALY", 5⟩, ⟨"T", "eqcat", "PDF.m2.yr", 7⟩]).2.2).map
      (fun _ => (13 : ℚ))).sum := by
  obtain ⟨hh_es, hh_bw, eq_es, eq_bw, hmap, hHH, hEQ⟩ :=
    comparison_aop_brightway_sums "T" 1 1 1
      []
      [("IMPACT World+ Damage 2.0 | Human health | hhcat", 9),
       ("IMPACT World+ Damage 2.0 | Ecosystem quality | eqcat", 13)]
      [⟨"T", "cc", "kg", 2⟩, ⟨"T", "hhcat", "DALY", 4⟩, ⟨"T", "eqcat", "PDF.m2.yr", 6⟩]
      [⟨"T", "cc", "kg", 3⟩, ⟨"T", "hhcat", "DALY", 5⟩, ⟨"T", "eqcat", "PDF.m2.yr", 7⟩]
      [⟨"Human health", 9, 9, 0⟩, ⟨"Ecosystem quality", 13, 13, 0⟩]
      (by
        simp [comparison, comparisonCore, compLoop_nil, compLoop_cons,
          impact_categories, uniqueList, dfLookup, getCol_eq, addDelta_nil,
          addDelta_cons, impact_computation, aopCompute, medCompute,
          matchesImpact_some, iloc0_nil, iloc0_cons, floatSeries_nil,
          floatSeries_single, floatSeries_two, asMedNum_medNum, asAopNum_aopNum,
          pyBind_err, pyBind_pynone, pyBind_val, sep_midpoints_endpoints,
          isEndpointRow, containsRegex, dotSearch, dotMatch, sumValues,
          sumLookups_nil, sumLookups_cons, method_midpoint, method_endpoint_EQ,
          method_endpoint_HH, pyStr, List.filter, List.map, List.sum, List.foldl,
          List.find?, String.toList, String.reduceEq]
        norm_num)
  simp only [List.map_cons, List.map_nil] at hmap
  injection hmap with h1 h2
  injection h2 with h2
  obtain ⟨-, hes, hbw⟩ :
      "Human health" = "Human health" ∧ (9 : ℚ) = hh_es ∧ (9 : ℚ) = hh_bw := by
    simpa [Prod.ext_iff] using h1
  obtain ⟨-, hes2, hbw2⟩ :
      "Ecosystem quality" = "Ecosystem quality" ∧ (13 : ℚ) = eq_es ∧ (13 : ℚ) = eq_bw := by
    simpa [Prod.ext_iff] using h2
  constructor
  · have := hHH (fun _ => (9 : ℚ)) (by
      intro c hc
      simp only [impact_categories, sep_midpoints_endpoints, uniqueList,
        isEndpointRow, containsRegex, dotSearch, dotMatch, List.filter, List.map,
        List.foldl, String.toList, String.reduceEq] at hc
      simp at hc
      subst hc
      simp [dfLookup, List.find?, method_endpoint_HH, String.reduceEq])
    rw [← hbw] at this
    exact this
  · have := hEQ (fun _ => (13 : ℚ)) (by
      intro c hc
      simp only [impact_categories, sep_midpoints_endpoints, uniqueList,
        isEndpointRow, containsRegex, dotSearch, dotMatch, List.filter, List.map,
        List.foldl, String.toList, String.reduceEq] at hc
      simp at hc
      subst hc
      simp [dfLookup, List.find?, method_endpoint_EQ, String.reduceEq])
    rw [← hbw2] at this
    exact this

theorem sepH_eq (h : Heap) (rc ru : Nat) (hrc : rc < h.dfs.length)
    (hru : ru < h.dfs.length) :
    sepH h rc ru =
      (⟨h.dfs ++ [(sep_midpoints_endpoints (readH h rc) (readH h ru)).1,
                  (sep_midpoints_endpoints (readH h rc) (readH h ru)).2.1,
                  (sep_midpoints_endpoints (readH h rc) (readH h ru)).2.2.1,
                  (sep_midpoints_endpoints (readH h rc) (readH h ru)).2.2.2]⟩,
       (h.dfs.length, h.dfs.length + 1, h.dfs.length + 2, h.dfs.length + 3)) := by
  obtain ⟨dfs⟩ := h
  simp only [sepH, copyH, allocH, dropRowsH, writeH, readH, sep_midpoints_endpoints,
    List.append_assoc, List.cons_append, List.nil_append, List.length_append,
    List.length_cons, List.length_nil]
  rw [List.getD_append _ _ _ _ hru]
  rw [List.getD_append _ _ _ _ hrc]
  rw [List.getD_append _ _ _ _ hru]
  simp [List.getD_append_right, List.set_append_right, Nat.add_sub_cancel_left,
    Nat.sub_self, Nat.le_add_right]
  simp [List.getElem_append_right, List.getElem?_append_right, Nat.sub_self,
    Nat.add_sub_cancel_left, Nat.le_add_right]

theorem readH_append (dfs ext : List (List Row)) (i : Nat)
    (hi : i < dfs.length) :
    readH ⟨dfs ++ ext⟩ i = readH ⟨dfs⟩ i := by
  simp only [readH]
  exact List.getD_append _ _ _ _ hi

theorem readH_append_at (dfs ext : List (List Row)) (k : Nat) :
    readH ⟨dfs ++ ext⟩ (dfs.length + k) = ext.getD k [] := by
  simp only [readH]
  rw [List.getD_append_right _ _ _ _ (Nat.le_add_right _ _),
    Nat.add_sub_cancel_left]

theorem readH_append_len (dfs ext : List (List Row)) :
    readH ⟨dfs ++ ext⟩ dfs.length = ext.getD 0 [] := by
  have := readH_append_at dfs ext 0
  rwa [Nat.add_zero] at this

theorem readH_ext (h : Heap) (ext : List (List Row)) (i : Nat)
    (hi : i < h.dfs.length) :
    readH ⟨h.dfs ++ ext⟩ i = readH h i := by
  obtain ⟨dfs⟩ := h
  exact readH_append dfs ext i hi

theorem impact_categoriesH_eq (h : Heap) (rc ru : Nat)
    (hrc : rc < h.dfs.length) (hru : ru < h.dfs.length) :
    impact_categoriesH h rc ru =
      (⟨h.dfs ++ [(sep_midpoints_endpoints (readH h rc) (readH h ru)).1,
                  (sep_midpoints_endpoints (readH h rc) (readH h ru)).2.1,
                  (sep_midpoints_endpoints (readH h rc) (readH h ru)).2.2.1,
                  (sep_midpoints_endpoints (readH h rc) (readH h ru)).2.2.2]⟩,
       impact_categories (readH h rc) (readH h ru)) := by
  simp only [impact_categoriesH, sepH_eq h rc ru hrc hru, readH_append_at,
    readH_append_len, List.getD_cons_zero, List.getD_cons_succ,
    impact_categories, sep_midpoints_endpoints]

theorem impact_computationH_eq (h : Heap) (tech : String) (impact : Option String)
    (cf cp uv : ℚ) (indicator format : String) (rc ru : Nat)
    (hrc : rc < h.dfs.length) (hru : ru < h.dfs.length) :
    ∃ ext, impact_computationH h tech impact cf cp uv indicator format rc ru =
      (⟨h.dfs ++ ext⟩,
       impact_computation tech impact cf cp uv indicator format
         (readH h rc) (readH h ru)) := by
  simp only [impact_computationH, impact_computation, sepH_eq h rc ru hrc hru]
  by_cases h1 : indicator = "aop"
  · refine ⟨[(sep_midpoints_endpoints (readH h rc) (readH h ru)).1,
      (sep_midpoints_endpoints (readH h rc) (readH h ru)).2.1,
      (sep_midpoints_endpoints (readH h rc) (readH h ru)).2.2.1,
      (sep_midpoints_endpoints (readH h rc) (readH h ru)).2.2.2], ?_⟩
    rw [if_pos h1, if_pos h1]
    simp only [readH_append_at, List.getD_cons_zero, List.getD_cons_succ]
  · rw [if_neg h1, if_neg h1]
    by_cases h2 : indicator = "midpoint"
    · refine ⟨[(sep_midpoints_endpoints (readH h rc) (readH h ru)).1,
        (sep_midpoints_endpoints (readH h rc) (readH h ru)).2.1,
        (sep_midpoints_endpoints (readH h rc) (readH h ru)).2.2.1,
        (sep_midpoints_endpoints (readH h rc) (readH h ru)).2.2.2,
        (sep_midpoints_endpoints (readH h rc) (readH h ru)).1,
        (sep_midpoints_endpoints (readH h rc) (readH h ru)).2.1], ?_⟩
      rw [if_pos h2, if_pos h2]
      simp only [copyH, allocH, readH_append_len, readH_append_at,
        List.append_assoc, List.cons_append, List.nil_append, List.length_append,
        List.length_cons, List.length_nil, List.getD_cons_zero, List.getD_cons_succ]
    · rw [if_neg h2, if_neg h2]
      by_cases h3 : indicator = "endpoint"
      · refine ⟨[(sep_midpoints_endpoints (readH h rc) (readH h ru)).1,
          (sep_midpoints_endpoints (readH h rc) (readH h ru)).2.1,
          (sep_midpoints_endpoints (readH h rc) (readH h ru)).2.2.1,
          (sep_midpoints_endpoints (readH h rc) (readH h ru)).2.2.2,
          (sep_midpoints_endpoints (readH h rc) (readH h ru)).2.2.1,
          (sep_midpoints_endpoints (readH h rc) (readH h ru)).2.2.2], ?_⟩
        rw [if_pos h3, if_pos h3]
        simp only [copyH, allocH, readH_append_len, readH_append_at,
          List.append_assoc, List.cons_append, List.nil_append, List.length_append,
          List.length_cons, List.length_nil, List.getD_cons_zero, List.getD_cons_succ]
      · rw [if_neg h3, if_neg h3]
        exact ⟨[(sep_midpoints_endpoints (readH h rc) (readH h ru)).1,
          (sep_midpoints_endpoints (readH h rc) (readH h ru)).2.1,
          (sep_midpoints_endpoints (readH h rc) (readH h ru)).2.2.1,
          (sep_midpoints_endpoints (readH h rc) (readH h ru)).2.2.2], rfl⟩

theorem compLoopH_eq (tech : String) (cf cp uv : ℚ) (ind : String)
    (dfbw : List (String × ℚ)) (method : String) (rc ru : Nat) :
    ∀ (cats : List String) (h : Heap), rc < h.dfs.length → ru < h.dfs.length →
      ∃ ext, compLoopH tech cf cp uv ind dfbw method rc ru h cats =
        (⟨h.dfs ++ ext⟩,
         compLoop tech cf cp uv ind dfbw method (readH h rc) (readH h ru) cats) := by
  intro cats
  induction cats with
  | nil =>
    intro h hrc hru
    refine ⟨[], ?_⟩
    simp [compLoopH, compLoop_nil]
  | cons c cs ih =>
    intro h hrc hru
    simp only [compLoopH]
    cases hg : getCol dfbw (method ++ c) with
    | err e =>
      refine ⟨[], ?_⟩
      rw [compLoop_cons, hg, pyBind_err]
      simp
    | pynone =>
      refine ⟨[], ?_⟩
      rw [compLoop_cons, hg, pyBind_pynone]
      simp
    | val bw =>
      obtain ⟨ext1, hq⟩ :=
        impact_computationH_eq h tech (some c) cf cp uv ind "number" rc ru hrc hru
      rw [hq]
      cases hm : PyRes.bind (impact_computation tech (some c) cf cp uv ind
          "number" (readH h rc) (readH h ru)) asMedNum with
      | err e =>
        refine ⟨ext1, ?_⟩
        rw [compLoop_cons, hg, pyBind_val, hm, pyBind_err]
      | pynone =>
        refine ⟨ext1, ?_⟩
        rw [compLoop_cons, hg, pyBind_val, hm, pyBind_pynone]
      | val x =>
        have hrc2 : rc < (⟨h.dfs ++ ext1⟩ : Heap).dfs.length := by
          simp only [List.length_append]
          omega
        have hru2 : ru < (⟨h.dfs ++ ext1⟩ : Heap).dfs.length := by
          simp only [List.length_append]
          omega
        obtain ⟨ext2, hrest⟩ := ih ⟨h.dfs ++ ext1⟩ hrc2 hru2
        rw [readH_ext h ext1 rc hrc, readH_ext h ext1 ru hru] at hrest
        refine ⟨ext1 ++ ext2, ?_⟩
        rw [hrest]
        rw [compLoop_cons, hg, pyBind_val, hm, pyBind_val]
        simp [List.append_assoc]

set_option maxHeartbeats 1000000 in
theorem comparisonH_eq (h : Heap) (tech : String) (cf cp uv : ℚ)
    (indicator : String) (dfm dfe : List (String × ℚ)) (rc ru : Nat)
    (hrc : rc < h.dfs.length) (hru : ru < h.dfs.length) :
    ∃ ext, comparisonH h tech cf cp uv indicator dfm dfe rc ru =
      (⟨h.dfs ++ ext⟩,
       comparison tech cf cp uv indicator dfm dfe (readH h rc) (readH h ru)) := by
  unfold comparisonH
  rw [sepH_eq h rc ru hrc hru]
  set L := [(sep_midpoints_endpoints (readH h rc) (readH h ru)).1,
            (sep_midpoints_endpoints (readH h rc) (readH h ru)).2.1,
            (sep_midpoints_endpoints (readH h rc) (readH h ru)).2.2.1,
            (sep_midpoints_endpoints (readH h rc) (readH h ru)).2.2.2] with hL
  have hrc1 : rc < (⟨h.dfs ++ L⟩ : Heap).dfs.length := by
    simp only [List.length_append]
    omega
  have hru1 : ru < (⟨h.dfs ++ L⟩ : Heap).dfs.length := by
    simp only [List.length_append]
    omega
  have hic := impact_categoriesH_eq ⟨h.dfs ++ L⟩ rc ru hrc1 hru1
  rw [readH_ext h L rc hrc, readH_ext h L ru hru] at hic
  rw [← hL] at hic
  simp only []
  simp only [] at hic
  rw [hic]
  simp only []
  have hrc2 : rc < (h.dfs ++ L ++ L).length := by
    simp only [List.length_append]
    omega
  have hru2 : ru < (h.dfs ++ L ++ L).length := by
    simp only [List.length_append]
    omega
  have hr1 : readH ⟨h.dfs ++ L ++ L⟩ rc = readH h rc := by
    rw [List.append_assoc]
    exact readH_ext h (L ++ L) rc hrc
  have hr2 : readH ⟨h.dfs ++ L ++ L⟩ ru = readH h ru := by
    rw [List.append_assoc]
    exact readH_ext h (L ++ L) ru hru
  unfold comparison comparisonCore
  simp only []
  by_cases h1 : indicator = "aop"
  · rw [if_pos h1, if_pos h1]
    cases hEQ : sumLookups dfe method_endpoint_EQ
        (impact_categories (readH h rc) (readH h ru)).2.2 0 with
    | err e =>
      refine ⟨L ++ L, ?_⟩
      simp only [pyBind_err, List.append_assoc]
    | pynone =>
      refine ⟨L ++ L, ?_⟩
      simp only [pyBind_pynone, List.append_assoc]
    | val EQv =>
      cases hHH : sumLookups dfe method_endpoint_HH
          (impact_categories (readH h rc) (readH h ru)).2.1 0 with
      | err e =>
        refine ⟨L ++ L, ?_⟩
        simp only [pyBind_err, pyBind_val, List.append_assoc]
      | pynone =>
        refine ⟨L ++ L, ?_⟩
        simp only [pyBind_pynone, pyBind_val, List.append_assoc]
      | val HHv =>
        obtain ⟨ext1, hq⟩ := impact_computationH_eq ⟨h.dfs ++ L ++ L⟩ tech none
          cf cp uv "aop" "number" rc ru hrc2 hru2
        rw [hr1, hr2] at hq
        rw [hq]
        refine ⟨L ++ L ++ ext1, ?_⟩
        simp only [pyBind_val, List.append_assoc]
  · rw [if_neg h1, if_neg h1]
    by_cases h2 : indicator = "midpoint"
    · rw [if_pos h2, if_pos h2]
      obtain ⟨ext1, hq⟩ := compLoopH_eq tech cf cp uv "midpoint" dfm
        method_midpoint rc ru
        (impact_categories (readH h rc) (readH h ru)).1 ⟨h.dfs ++ L ++ L⟩
        hrc2 hru2
      rw [hr1, hr2] at hq
      rw [hq]
      refine ⟨L ++ L ++ ext1, ?_⟩
      simp only [List.append_assoc]
    · rw [if_neg h2, if_neg h2]
      by_cases h3 : indicator = "endpoint"
      · rw [if_pos h3, if_pos h3]
        obtain ⟨ext1, hq1⟩ := compLoopH_eq tech cf cp uv "endpoint" dfe
          method_endpoint_HH rc ru
          (impact_categories (readH h rc) (readH h ru)).2.1 ⟨h.dfs ++ L ++ L⟩
          hrc2 hru2
        rw [hr1, hr2] at hq1
        rw [hq1]
        simp only []
        cases hHHr : compLoop tech cf cp uv "endpoint" dfe method_endpoint_HH
            (readH h rc) (readH h ru)
            (impact_categories (readH h rc) (readH h ru)).2.1 with
        | err e =>
          refine ⟨L ++ L ++ ext1, ?_⟩
          simp only [pyBind_err, List.append_assoc]
        | pynone =>
          refine ⟨L ++ L ++ ext1, ?_⟩
          simp only [pyBind_pynone, List.append_assoc]
        | val hhRows =>
          have hrc3 : rc < (h.dfs ++ L ++ L ++ ext1).length := by
            simp only [List.length_append]
            omega
          have hru3 : ru < (h.dfs ++ L ++ L ++ ext1).length := by
            simp only [List.length_append]
            omega
          obtain ⟨ext2, hq2⟩ := compLoopH_eq tech cf cp uv "endpoint" dfe
            method_endpoint_EQ rc ru
            (impact_categories (readH h rc) (readH h ru)).2.2
            ⟨h.dfs ++ L ++ L ++ ext1⟩ hrc3 hru3
          have hr3 : readH ⟨h.dfs ++ L ++ L ++ ext1⟩ rc = readH h rc := by
            rw [List.append_assoc, List.append_assoc]
            exact readH_ext h (L ++ (L ++ ext1)) rc hrc
          have hr4 : readH ⟨h.dfs ++ L ++ L ++ ext1⟩ ru = readH h ru := by
            rw [List.append_assoc, List.append_assoc]
            exact readH_ext h (L ++ (L ++ ext1)) ru hru
          rw [hr3, hr4] at hq2
          rw [hq2]
          refine ⟨L ++ L ++ ext1 ++ ext2, ?_⟩
          simp only [pyBind_val, List.append_assoc]
      · rw [if_neg h3, if_neg h3]
        refine ⟨L ++ L, ?_⟩
        simp only [pyBind_err, List.append_assoc]

/-- C7: sep_midpoints_endpoints, impact_categories, impact_computation and
comparison leave the caller's tables unchanged.  In the heap model, each
call returns a heap extending the input heap with fresh cells only, so
the cells holding R_constr (at rc) and R_use (at ru) still hold their
original rows; moreover each call's result is the pure function of the
tables read at rc and ru (for sep_midpoints_endpoints, the four returned
references hold exactly the four subsets of the pure function). -/
theorem calls_preserve_inputs (h : Heap) (tech : String) (impact : Option String)
    (cf cp uv : ℚ) (indicator format : String) (dfm dfe : List (String × ℚ))
    (rc ru : Nat) (hrc : rc < h.dfs.length) (hru : ru < h.dfs.length) :
    (readH (sepH h rc ru).1 rc = readH h rc ∧
     readH (sepH h rc ru).1 ru = readH h ru ∧
     readH (sepH h rc ru).1 (sepH h rc ru).2.1 =
       (sep_midpoints_endpoints (readH h rc) (readH h ru)).1 ∧
     readH (sepH h rc ru).1 (sepH h rc ru).2.2.1 =
       (sep_midpoints_endpoints (readH h rc) (readH h ru)).2.1 ∧
     readH (sepH h rc ru).1 (sepH h rc ru).2.2.2.1 =
       (sep_midpoints_endpoints (readH h rc) (readH h ru)).2.2.1 ∧
     readH (sepH h rc ru).1 (sepH h rc ru).2.2.2.2 =
       (sep_midpoints_endpoints (readH h rc) (readH h ru)).2.2.2) ∧
    (readH (impact_categoriesH h rc ru).1 rc = readH h rc ∧
     readH (impact_categoriesH h rc ru).1 ru = readH h ru ∧
     (impact_categoriesH h rc ru).2 =
       impact_categories (readH h rc) (readH h ru)) ∧
    (readH (impact_computationH h tech impact cf cp uv indicator format rc ru).1
        rc = readH h rc ∧
     readH (impact_computationH h tech impact cf cp uv indicator format rc ru).1
        ru = readH h ru ∧
     (impact_computationH h tech impact cf cp uv indicator format rc ru).2 =
       impact_computation tech impact cf cp uv indicator format
         (readH h rc) (readH h ru)) ∧
    (readH (comparisonH h tech cf cp uv indicator dfm dfe rc ru).1 rc =
       readH h rc ∧
     readH (comparisonH h tech cf cp uv indicator dfm dfe rc ru).1 ru =
       readH h ru ∧
     (comparisonH h tech cf cp uv indicator dfm dfe rc ru).2 =
       comparison tech cf cp uv indicator dfm dfe
         (readH h rc) (readH h ru)) := by
  have hsep := sepH_eq h rc ru hrc hru
  have hic := impact_categoriesH_eq h rc ru hrc hru
  obtain ⟨ext3, hcomp⟩ :=
    impact_computationH_eq h tech impact cf cp uv indicator format rc ru hrc hru
  obtain ⟨ext4, hcmp⟩ :=
    comparisonH_eq h tech cf cp uv indicator dfm dfe rc ru hrc hru
  refine ⟨⟨?_, ?_, ?_, ?_, ?_, ?_⟩, ⟨?_, ?_, ?_⟩, ⟨?_, ?_, ?_⟩, ⟨?_, ?_, ?_⟩⟩
  · rw [hsep]
    exact readH_ext h _ rc hrc
  · rw [hsep]
    exact readH_ext h _ ru hru
  · rw [hsep]
    exact readH_append_len h.dfs _
  · rw [hsep]
    exact readH_append_at h.dfs _ 1
  · rw [hsep]
    exact readH_append_at h.dfs _ 2
  · rw [hsep]
    exact readH_append_at h.dfs _ 3
  · rw [hic]
    exact readH_ext h _ rc hrc
  · rw [hic]
    exact readH_ext h _ ru hru
  · rw [hic]
  · rw [hcomp]
    exact readH_ext h ext3 rc hrc
  · rw [hcomp]
    exact readH_ext h ext3 ru hru
  · rw [hcomp]
  · rw [hcmp]
    exact readH_ext h ext4 rc hrc
  · rw [hcmp]
    exact readH_ext h ext4 ru hru
  · rw [hcmp]

theorem calls_preserve_inputs_witness :
    (0 : Nat) <
      (Heap.mk [[⟨"T", "cc", "DALY", 1⟩], [⟨"T", "cc", "kg", 2⟩]]).dfs.length ∧
    (1 : Nat) <
      (Heap.mk [[⟨"T", "cc", "DALY", 1⟩], [⟨"T", "cc", "kg", 2⟩]]).dfs.length ∧
    (readH (comparisonH (Heap.mk [[⟨"T", "cc", "DALY", 1⟩],
        [⟨"T", "cc", "kg", 2⟩]]) "T" 1 1 1 "endpoint" [] [] 0 1).1 0 =
       readH (Heap.mk [[⟨"T", "cc", "DALY", 1⟩], [⟨"T", "cc", "kg", 2⟩]]) 0 ∧
     readH (comparisonH (Heap.mk [[⟨"T", "cc", "DALY", 1⟩],
        [⟨"T", "cc", "kg", 2⟩]]) "T" 1 1 1 "endpoint" [] [] 0 1).1 1 =
       readH (Heap.mk [[⟨"T", "cc", "DALY", 1⟩], [⟨"T", "cc", "kg", 2⟩]]) 1 ∧
     (comparisonH (Heap.mk [[⟨"T", "cc", "DALY", 1⟩],
        [⟨"T", "cc", "kg", 2⟩]]) "T" 1 1 1 "endpoint" [] [] 0 1).2 =
       comparison "T" 1 1 1 "endpoint" [] []
         (readH (Heap.mk [[⟨"T", "cc", "DALY", 1⟩],
            [⟨"T", "cc", "kg", 2⟩]]) 0)
         (readH (Heap.mk [[⟨"T", "cc", "DALY", 1⟩],
            [⟨"T", "cc", "kg", 2⟩]]) 1)) :=
  ⟨by decide, by decide,
   (calls_preserve_inputs
     (Heap.mk [[⟨"T", "cc", "DALY", 1⟩], [⟨"T", "cc", "kg", 2⟩]])
     "T" none 1 1 1 "endpoint" "number" [] [] 0 1
     (by decide) (by decide)).2.2.2⟩
